import Mathlib

/-!
A shallow embedding of the per-frame vision pipeline of the
traffic-violation system: the centroid tracker (`backend/vision/tracker.py`),
the YOLO postprocessing (`backend/vision/detector.py`), the zone and
direction violation detectors (`backend/vision/violations/zone.py`,
`backend/vision/violations/direction.py`) and the violation manager
(`backend/vision/violation_manager.py`).

Modelling conventions:
* Python floats are modelled as `ℚ`, pixel coordinates as `ℤ`,
  counters and identifiers as `ℕ`.
* Python `dict` / `OrderedDict` values are modelled as insertion-ordered
  association lists (`List (Nat × α)`) with unique keys.
* Euclidean distances (`scipy.cdist`) appear in the source only in order
  comparisons (`argmin`, `argsort`, `> max_distance`); the embedding uses
  squared distances and compares against `max_distance ^ 2`, which induces
  exactly the same order on the nonnegative reals.  The sign case
  `max_distance < 0` is carried separately so the comparison
  `dist > max_distance` is translated exactly.
* `numpy.argsort` is modelled as a stable sort; `numpy.argmin` returns the
  first index attaining the minimum, as in numpy.
* Wall-clock values (`time.time()`) are passed to each `check` call as an
  explicit `now : ℚ` argument.
-/

namespace TVS

/-! ### Association-list dictionaries -/

/-- Lookup in an insertion-ordered dictionary (Python `d.get(k)`). -/
def dictGet {α : Type} (m : List (Nat × α)) (k : Nat) : Option α :=
  match m with
  | [] => none
  | (k₁, v) :: rest => if k₁ = k then some v else dictGet rest k

/-- Lookup with default (Python `d.get(k, dflt)`). -/
def dictGetD {α : Type} (m : List (Nat × α)) (k : Nat) (dflt : α) : α :=
  (dictGet m k).getD dflt

/-- Assignment `d[k] = v`: overwrite in place if present, else append
(Python dictionaries keep insertion order). -/
def dictSet {α : Type} (m : List (Nat × α)) (k : Nat) (v : α) : List (Nat × α) :=
  match m with
  | [] => [(k, v)]
  | (k₁, v₁) :: rest =>
    if k₁ = k then (k₁, v) :: rest else (k₁, v₁) :: dictSet rest k v

/-- Removal `d.pop(k, None)` / `del d[k]`; with unique keys this is the
same as filtering the key out. -/
def dictPop {α : Type} (m : List (Nat × α)) (k : Nat) : List (Nat × α) :=
  match m with
  | [] => []
  | p :: rest => if p.1 = k then dictPop rest k else p :: dictPop rest k

/-- Keep only the entries whose key satisfies `keep` (used for the
stale-entry cleanup loops, which pop every stale key). -/
def dictKeep {α : Type} (keep : Nat → Prop) [DecidablePred keep]
    (m : List (Nat × α)) : List (Nat × α) :=
  match m with
  | [] => []
  | p :: rest => if keep p.1 then p :: dictKeep keep rest else dictKeep keep rest

/-! ### Detections (`backend/vision/detector.py`, `Detection` dataclass) -/

/-- One detected object in a frame; bbox is `(x1, y1, x2, y2)`. -/
structure Detection where
  bbox : Int × Int × Int × Int
  class_id : Nat
  class_name : String
  confidence : ℚ
  deriving Repr, DecidableEq

instance : Inhabited Detection := ⟨⟨(0, 0, 0, 0), 0, "", 0⟩⟩

/-- Derived centroid set in `Detection.__post_init__`:
`((x1 + x2) // 2, (y1 + y2) // 2)` with Python floor division. -/
def Detection.center (d : Detection) : Int × Int :=
  (Int.fdiv (d.bbox.1 + d.bbox.2.2.1) 2, Int.fdiv (d.bbox.2.1 + d.bbox.2.2.2) 2)

/-! ### Tracked objects (`backend/vision/tracker.py`) -/

/-- `DEFAULT_HISTORY_LENGTH`: the deque bound on `centroid_history`. -/
def HISTORY_LENGTH : Nat := 30

/-- A tracked object with persistent ID and centroid history.  The history
deque is modelled oldest-first. -/
structure TrackedObject where
  object_id : Nat
  centroid : Int × Int
  bbox : Int × Int × Int × Int
  class_id : Nat
  class_name : String
  confidence : ℚ
  disappeared : Nat
  centroid_history : List (Int × Int)
  frame_count : Nat
  deriving Repr, DecidableEq

instance : Inhabited TrackedObject :=
  ⟨⟨0, (0, 0), (0, 0, 0, 0), 0, "", 0, 0, [], 0⟩⟩

/-- Append to a `deque(maxlen=HISTORY_LENGTH)`: the oldest entries are
evicted so that at most `HISTORY_LENGTH` remain. -/
def histAppend (h : List (Int × Int)) (c : Int × Int) : List (Int × Int) :=
  (h ++ [c]).drop ((h ++ [c]).length - HISTORY_LENGTH)

/-- Construction of a `TrackedObject` in `CentroidTracker._register`
(including the `__post_init__` seeding of the history). -/
def mkTracked (oid : Nat) (d : Detection) : TrackedObject :=
  { object_id := oid
    centroid := d.center
    bbox := d.bbox
    class_id := d.class_id
    class_name := d.class_name
    confidence := d.confidence
    disappeared := 0
    centroid_history := [d.center]
    frame_count := 0 }

/-- Field updates applied to a matched track in `CentroidTracker.update`
(case 3): new centroid/bbox/confidence, `disappeared = 0`,
`frame_count += 1`, centroid appended to history.  `class_id` and
`class_name` are not touched by the source. -/
def assocUpdate (o : TrackedObject) (d : Detection) : TrackedObject :=
  { o with
    centroid := d.center
    bbox := d.bbox
    confidence := d.confidence
    disappeared := 0
    frame_count := o.frame_count + 1
    centroid_history := histAppend o.centroid_history d.center }

/-! ### The centroid tracker -/

/-- `CentroidTracker`: configuration plus mutable state
(`_next_object_id`, ordered mapping `objects`). -/
structure Tracker where
  max_disappeared : Nat
  max_distance : Int
  next_object_id : Nat
  objects : List (Nat × TrackedObject)
  deriving Repr, DecidableEq

/-- A fresh tracker (`CentroidTracker.__init__` / after `reset()`). -/
def Tracker.init (maxDis : Nat) (maxDist : Int) : Tracker :=
  ⟨maxDis, maxDist, 0, []⟩

/-- Squared Euclidean distance between two integer centroids. -/
def sqDist (a b : Int × Int) : Int :=
  (a.1 - b.1) ^ 2 + (a.2 - b.2) ^ 2

/-- Insert an index into a list sorted by `key`, keeping equal keys in
their original relative order (used to model stable `argsort`). -/
def insertIdx (key : Nat → Int) (i : Nat) : List Nat → List Nat
  | [] => [i]
  | j :: rest =>
    if key j < key i then j :: insertIdx key i rest else i :: j :: rest

/-- Stable argsort of a list of indices by `key`
(models `numpy.ndarray.argsort` on the row-minimum vector). -/
def argsort (key : Nat → Int) : List Nat → List Nat
  | [] => []
  | i :: rest => insertIdx key i (argsort key rest)

/-- First index in the list attaining the minimal `key`
(models `numpy.argmin` along a row). -/
def argminList (key : Nat → Int) : List Nat → Nat
  | [] => 0
  | [i] => i
  | i :: j :: rest =>
    let k := argminList key (j :: rest)
    if key i ≤ key k then i else k

/-- The pairwise squared-distance matrix of `CentroidTracker.update`
(case 3): row = existing track position, column = detection position. -/
def distMatrix (os : List (Nat × TrackedObject)) (dets : List Detection)
    (r c : Nat) : Int :=
  sqDist (os.getD r default).2.centroid (dets.getD c default).center

/-- Column taken by row `r`: its argmin at matrix-construction time
(`cols = distances.argmin(axis=1)[rows]`). -/
def rowArgmin (os : List (Nat × TrackedObject)) (dets : List Detection)
    (r : Nat) : Nat :=
  argminList (distMatrix os dets r) (List.range dets.length)

/-- The test `distances[row, col] > self.max_distance` on a squared
distance: exact when `max_distance ≥ 0`; a negative `max_distance`
makes the source's comparison always true. -/
def tooFar (maxDist d2 : Int) : Prop :=
  maxDist < 0 ∨ d2 > maxDist ^ 2

instance (maxDist d2 : Int) : Decidable (tooFar maxDist d2) := by
  unfold tooFar; infer_instance

/-- One step of the greedy matching loop (`for row, col in zip(rows, cols)`).
State: used rows, used columns, current objects map. -/
def matchStep (os : List (Nat × TrackedObject)) (dets : List Detection)
    (maxDist : Int)
    (st : List Nat × List Nat × List (Nat × TrackedObject)) (r : Nat) :
    List Nat × List Nat × List (Nat × TrackedObject) :=
  let c := rowArgmin os dets r
  if r ∈ st.1 ∨ c ∈ st.2.1 then st
  else if tooFar maxDist (distMatrix os dets r c) then st
  else
    let k := (os.getD r default).1
    let d := dets.getD c default
    (r :: st.1, c :: st.2.1,
     st.2.2.map (fun p => if p.1 = k then (p.1, assocUpdate p.2 d) else p))

/-- Unmatched existing rows (`for row in range(len(object_ids))` paired with
the objects in order): increment `disappeared` and deregister the track when
it exceeds `max_disappeared`; `r` is the row index of the head. -/
def handleRowsAux (maxDis : Nat) (usedRows : List Nat) (r : Nat) :
    List (Nat × TrackedObject) → List (Nat × TrackedObject)
  | [] => []
  | p :: rest =>
    if r ∈ usedRows then p :: handleRowsAux maxDis usedRows (r + 1) rest
    else
      let o := { p.2 with disappeared := p.2.disappeared + 1 }
      if o.disappeared > maxDis then handleRowsAux maxDis usedRows (r + 1) rest
      else (p.1, o) :: handleRowsAux maxDis usedRows (r + 1) rest

/-- Unmatched existing rows, starting at row index 0. -/
def handleUnmatchedRows (maxDis : Nat) (usedRows : List Nat)
    (objs : List (Nat × TrackedObject)) : List (Nat × TrackedObject) :=
  handleRowsAux maxDis usedRows 0 objs

/-- Registration loop over detection columns: each unused column is
registered as a new track with the next fresh id (`c` is the column index
of the head detection).  Returns the new entries and the next id. -/
def registerAux (usedCols : List Nat) (c nid : Nat) :
    List Detection → List (Nat × TrackedObject) × Nat
  | [] => ([], nid)
  | d :: rest =>
    if c ∈ usedCols then registerAux usedCols (c + 1) nid rest
    else
      let r := registerAux usedCols (c + 1) (nid + 1) rest
      ((nid, mkTracked nid d) :: r.1, r.2)

/-- Unmatched new detections: register each as a new track (appended to the
insertion-ordered map), consuming fresh ids in column order. -/
def registerUnmatched (dets : List Detection) (usedCols : List Nat)
    (objs : List (Nat × TrackedObject)) (nid : Nat) :
    List (Nat × TrackedObject) × Nat :=
  let r := registerAux usedCols 0 nid dets
  (objs ++ r.1, r.2)

/-- Case 3 of `CentroidTracker.update`: greedy association of existing
tracks to new detections. -/
def updateMatch (t : Tracker) (dets : List Detection) : Tracker :=
  let os := t.objects
  let rows := argsort (fun r => distMatrix os dets r (rowArgmin os dets r))
    (List.range os.length)
  let st := rows.foldl (matchStep os dets t.max_distance) ([], [], os)
  let objs₂ := handleUnmatchedRows t.max_disappeared st.1 st.2.2
  let reg := registerUnmatched dets st.2.1 objs₂ t.next_object_id
  { t with objects := reg.1, next_object_id := reg.2 }

/-- `CentroidTracker.update`.  Case 1 (no detections): every track's
`disappeared` is incremented and tracks over the threshold are
deregistered.  Case 2 (no existing tracks): register every detection.
Case 3: greedy matching.  The returned list of the source is
`list(self.objects.values())`, i.e. `(update t dets).objects.map Prod.snd`. -/
def update (t : Tracker) (dets : List Detection) : Tracker :=
  if dets = [] then
    let bumped := t.objects.map (fun p =>
      (p.1, { p.2 with disappeared := p.2.disappeared + 1 }))
    { t with objects :=
        bumped.filter (fun p => ¬ p.2.disappeared > t.max_disappeared) }
  else if t.objects = [] then
    let r := registerAux [] 0 t.next_object_id dets
    { t with objects := t.objects ++ r.1, next_object_id := r.2 }
  else
    updateMatch t dets

/-- A whole sequence of `update` calls, one per frame. -/
def runUpdates (t : Tracker) (frames : List (List Detection)) : Tracker :=
  frames.foldl update t

/-! ### The association procedure as the specification words it

Spec §4.2 steps 2-3: "For each track row, find its closest detection and
the distance to it.  Sort tracks by that minimum distance ascending …
Walk the sorted rows; for each, take the column that was its own argmin at
matrix-construction time.  Skip if that row or column is already used.
Skip if `D[row,col] > max_distance`."  These definitions transcribe that
wording; claim C1 is that `update` computes exactly this. -/

/-- For one track row: the row index, its argmin column at
matrix-construction time, and its minimum distance to any detection. -/
def specRowInfo (os : List (Nat × TrackedObject)) (dets : List Detection)
    (r : Nat) : Nat × Nat × Int :=
  (r, rowArgmin os dets r, distMatrix os dets r (rowArgmin os dets r))

/-- Stable insertion into a list of row infos sorted by minimum distance. -/
def specInsert (x : Nat × Nat × Int) :
    List (Nat × Nat × Int) → List (Nat × Nat × Int)
  | [] => [x]
  | y :: rest => if y.2.2 < x.2.2 then y :: specInsert x rest else x :: y :: rest

/-- Sort the row infos by minimum distance ascending (stable). -/
def specSort : List (Nat × Nat × Int) → List (Nat × Nat × Int)
  | [] => []
  | x :: rest => specInsert x (specSort rest)

/-- One step of the walk over the sorted rows: skip if the row or its
pre-computed column is already used, skip if the distance exceeds
`max_distance`, otherwise the track takes the detection: new
centroid/bbox/confidence, `disappeared` reset to 0, `frame_count`
incremented, centroid appended to the history. -/
def specWalkStep (os : List (Nat × TrackedObject)) (dets : List Detection)
    (maxDist : Int)
    (st : List Nat × List Nat × List (Nat × TrackedObject))
    (p : Nat × Nat × Int) :
    List Nat × List Nat × List (Nat × TrackedObject) :=
  if p.1 ∈ st.1 ∨ p.2.1 ∈ st.2.1 then st
  else if tooFar maxDist p.2.2 then st
  else
    let k := (os.getD p.1 default).1
    let d := dets.getD p.2.1 default
    (p.1 :: st.1, p.2.1 :: st.2.1,
     st.2.2.map (fun q =>
       if q.1 = k then
         (q.1, { q.2 with
                 centroid := d.center
                 bbox := d.bbox
                 confidence := d.confidence
                 disappeared := 0
                 frame_count := q.2.frame_count + 1
                 centroid_history := histAppend q.2.centroid_history d.center })
       else q))

/-- The whole association pass in the specification's wording: build the
row infos, sort by minimum distance, walk them, then handle unused rows
and columns as in spec steps 5-6. -/
def updateSpecGreedy (t : Tracker) (dets : List Detection) : Tracker :=
  let os := t.objects
  let sorted := specSort ((List.range os.length).map (specRowInfo os dets))
  let st := sorted.foldl (specWalkStep os dets t.max_distance) ([], [], os)
  let objs₂ := handleUnmatchedRows t.max_disappeared st.1 st.2.2
  let reg := registerUnmatched dets st.2.1 objs₂ t.next_object_id
  { t with objects := reg.1, next_object_id := reg.2 }

/-! ### Point-in-polygon test

`ZoneViolationDetector.is_inside_zone` calls `cv2.pointPolygonTest(...) >= 0`,
an external library routine. -/

/-- Whether `p` lies on the closed segment from `a` to `b`. -/
def onSegment (a b p : Int × Int) : Bool :=
  decide ((b.1 - a.1) * (p.2 - a.2) = (b.2 - a.2) * (p.1 - a.1)) &&
  decide (min a.1 b.1 ≤ p.1 ∧ p.1 ≤ max a.1 b.1) &&
  decide (min a.2 b.2 ≤ p.2 ∧ p.2 ≤ max a.2 b.2)

/-- Modelled from the spec: `is_inside_zone` is an "even-odd or winding test
against P, treating points on the boundary as inside".  The binding in the
source is the external call `cv2.pointPolygonTest(...) >= 0`; this definition
is an even-odd ray-crossing test with an explicit boundary check. -/
def pointInPoly (poly : List (Int × Int)) (p : Int × Int) : Bool :=
  let edges := poly.zip (poly.rotate 1)
  let onEdge := edges.any (fun e => onSegment e.1 e.2 p)
  let crossings := edges.filter (fun e =>
    (decide (e.1.2 ≤ p.2) != decide (e.2.2 ≤ p.2)) &&
    decide ((p.1 : ℚ) <
      (e.1.1 : ℚ) + ((e.2.1 - e.1.1 : Int) : ℚ) * ((p.2 - e.1.2 : Int) : ℚ) /
        ((e.2.2 - e.1.2 : Int) : ℚ)))
  onEdge || decide (crossings.length % 2 = 1)

/-! ### Violation events (`backend/vision/violations/zone.py`) -/

/-- The free-form `metadata` dict attached to a `ViolationEvent`.  For
direction events the source stores `dot_product = dot(v, lane/‖lane‖)` and
`speed_px = ‖v‖`; since both are obtained from `dot_raw = dot(v, lane)` and
`speed_sq = ‖v‖²` by strictly monotone maps (`· / ‖lane‖` with `‖lane‖ > 0`,
and the square root), the embedding stores the pre-images `dot_raw` and
`speed_sq` exactly. -/
inductive VMeta where
  | zoneMeta (dwell_frames : Nat) (cls : String) (box : Int × Int × Int × Int)
  | dirMeta (dot_raw : ℚ) (movement : Int × Int) (speed_sq : Int)
      (consecutive_frames : Nat) (cls : String) (box : Int × Int × Int × Int)
  deriving Repr, DecidableEq

/-- Represents a detected traffic violation (`ViolationEvent` dataclass). -/
structure ViolationEvent where
  violation_type : String
  object_id : Nat
  confidence : ℚ
  timestamp : ℚ
  zone_id : Option String
  metadata : Option VMeta
  deriving Repr, DecidableEq

instance : Inhabited ViolationEvent := ⟨⟨"", 0, 0, 0, none, none⟩⟩

/-- The `consecutive_frames` metadata entry of a WRONG_WAY event
(0 when absent). -/
def ViolationEvent.consecutiveFrames (e : ViolationEvent) : Nat :=
  match e.metadata with
  | some (.dirMeta _ _ _ n _ _) => n
  | _ => 0

/-- Timestamps of the events emitted for object id `k`, in emission order. -/
def eventTimes (evs : List ViolationEvent) (k : Nat) : List ℚ :=
  match evs with
  | [] => []
  | e :: rest =>
    if e.object_id = k then e.timestamp :: eventTimes rest k else eventTimes rest k

/-- The `consecutive_frames` metadata values of the events emitted for
object id `k`, in emission order. -/
def eventConsecs (evs : List ViolationEvent) (k : Nat) : List Nat :=
  match evs with
  | [] => []
  | e :: rest =>
    if e.object_id = k then e.consecutiveFrames :: eventConsecs rest k
    else eventConsecs rest k

/-- Auxiliary invariant for the cooldown-separation arguments: every
recorded timestamp is at most `last`, and successive recorded timestamps
are more than `c` apart. -/
def SepInv (c last : ℚ) (ts : List ℚ) : Prop :=
  (∀ t ∈ ts, t ≤ last) ∧ ts.Pairwise (fun a b => a + c < b)

/-- Auxiliary invariant for the wrong-way counter argument: every recorded
`consecutive_frames` value is at most the current counter, and the recorded
values are strictly increasing. -/
def MonoInv (cnt : Nat) (ns : List Nat) : Prop :=
  (∀ n ∈ ns, n ≤ cnt) ∧ ns.Pairwise (fun a b => a < b)

/-- The set of object ids appearing in the current `tracked_objects` list
(`active_ids` in both detectors). -/
def activeIds (objs : List TrackedObject) (k : Nat) : Prop :=
  k ∈ objs.map TrackedObject.object_id

instance (objs : List TrackedObject) (k : Nat) : Decidable (activeIds objs k) := by
  unfold activeIds; infer_instance

/-! ### Zone violation detector (`backend/vision/violations/zone.py`) -/

/-- Constructor parameters of `ZoneViolationDetector` (immutable). -/
structure ZoneCfg where
  polygon : List (Int × Int)
  dwell_threshold : Nat
  cooldown_seconds : ℚ
  zone_id : String

/-- Mutable state of `ZoneViolationDetector`: `_dwell_counts` and
`_last_alert_time`. -/
structure ZoneSt where
  dwell : List (Nat × Nat)
  last_alert : List (Nat × ℚ)
  deriving Repr, DecidableEq

/-- Fresh state (both dicts empty). -/
def ZoneSt.init : ZoneSt := ⟨[], []⟩

/-- The body of `ZoneViolationDetector.check`'s per-object loop, applied to
one tracked object. -/
def zstepObj (cfg : ZoneCfg) (now : ℚ) (st : ZoneSt × List ViolationEvent)
    (obj : TrackedObject) : ZoneSt × List ViolationEvent :=
  if pointInPoly cfg.polygon obj.centroid then
    let cnt := dictGetD st.1.dwell obj.object_id 0 + 1
    let dwell₁ := dictSet st.1.dwell obj.object_id cnt
    if cnt ≥ cfg.dwell_threshold ∧
        now - dictGetD st.1.last_alert obj.object_id 0 > cfg.cooldown_seconds then
      let ev : ViolationEvent :=
        { violation_type := "ILLEGAL_PARKING"
          object_id := obj.object_id
          confidence := obj.confidence
          timestamp := now
          zone_id := some cfg.zone_id
          metadata := some (.zoneMeta cnt obj.class_name obj.bbox) }
      (⟨dwell₁, dictSet st.1.last_alert obj.object_id now⟩, st.2 ++ [ev])
    else
      (⟨dwell₁, st.1.last_alert⟩, st.2)
  else
    (⟨dictPop st.1.dwell obj.object_id, st.1.last_alert⟩, st.2)

/-- Stale-entry cleanup at the end of `ZoneViolationDetector.check`:
`stale_ids = set(self._dwell_counts.keys()) - active_ids`, popped from both
maps.  (Note: ids present only in `_last_alert_time` are not collected.) -/
def zcleanup (objs : List TrackedObject) (st : ZoneSt) : ZoneSt :=
  let stale := fun k => k ∈ st.dwell.map Prod.fst ∧ ¬ activeIds objs k
  ⟨dictKeep (fun k => ¬ stale k) st.dwell, dictKeep (fun k => ¬ stale k) st.last_alert⟩

/-- `ZoneViolationDetector.check`: per-object loop, then cleanup; returns
the new state and the list of emitted events. -/
def zcheck (cfg : ZoneCfg) (st : ZoneSt) (now : ℚ)
    (objs : List TrackedObject) : ZoneSt × List ViolationEvent :=
  let r := objs.foldl (zstepObj cfg now) (st, [])
  (zcleanup objs r.1, r.2)

/-- A sequence of `check` calls: each element of `calls` is the pair
(`time.time()` value, tracked objects of that frame); all emitted events are
concatenated in order. -/
def zrun (cfg : ZoneCfg) (st : ZoneSt) (calls : List (ℚ × List TrackedObject)) :
    ZoneSt × List ViolationEvent :=
  calls.foldl (fun acc c =>
    let r := zcheck cfg acc.1 c.1 c.2
    (r.1, acc.2 ++ r.2)) (st, [])

/-! ### Direction violation detector (`backend/vision/violations/direction.py`) -/

/-- Constructor parameters of `DirectionViolationDetector`.  The source
normalizes `lane_direction` to a unit vector (rejecting the zero vector);
the embedding keeps the raw vector, since every use divides out to a sign
or is recorded in `VMeta.dirMeta` as a `dot_raw` pre-image. -/
structure DirCfg where
  lane_direction : ℚ × ℚ
  direction_threshold : Nat
  min_displacement : ℚ
  cooldown_seconds : ℚ

/-- Mutable state of `DirectionViolationDetector`: `_wrong_way_counts` and
`_last_alert_time`. -/
structure DirSt where
  wrong_way : List (Nat × Nat)
  last_alert : List (Nat × ℚ)
  deriving Repr, DecidableEq

/-- Fresh state (both dicts empty). -/
def DirSt.init : DirSt := ⟨[], []⟩

/-- `DirectionViolationDetector._compute_movement_vector`: `None` when the
history has fewer than two entries or `‖newest − oldest‖ < min_displacement`
(for a nonnegative vector norm, `‖v‖ < M` iff `0 < M` and `‖v‖² < M²`). -/
def movementVector (cfg : DirCfg) (obj : TrackedObject) : Option (Int × Int) :=
  match obj.centroid_history with
  | [] => none
  | [_] => none
  | h =>
    let oldest := h.headD (0, 0)
    let newest := h.getLastD (0, 0)
    let v := (newest.1 - oldest.1, newest.2 - oldest.2)
    if 0 < cfg.min_displacement ∧
        ((v.1 ^ 2 + v.2 ^ 2 : Int) : ℚ) < cfg.min_displacement ^ 2 then none
    else some v

/-- The dot product of the movement vector with the raw lane vector; it has
the same sign as the source's `np.dot(movement, self.lane_direction)` with
the normalized lane vector. -/
def dotLane (cfg : DirCfg) (v : Int × Int) : ℚ :=
  (v.1 : ℚ) * cfg.lane_direction.1 + (v.2 : ℚ) * cfg.lane_direction.2

/-- The body of `DirectionViolationDetector.check`'s per-object loop. -/
def dstepObj (cfg : DirCfg) (now : ℚ) (st : DirSt × List ViolationEvent)
    (obj : TrackedObject) : DirSt × List ViolationEvent :=
  match movementVector cfg obj with
  | none => st
  | some v =>
    if dotLane cfg v < 0 then
      let cnt := dictGetD st.1.wrong_way obj.object_id 0 + 1
      let ww₁ := dictSet st.1.wrong_way obj.object_id cnt
      if cnt ≥ cfg.direction_threshold ∧
          now - dictGetD st.1.last_alert obj.object_id 0 > cfg.cooldown_seconds then
        let ev : ViolationEvent :=
          { violation_type := "WRONG_WAY"
            object_id := obj.object_id
            confidence := obj.confidence
            timestamp := now
            zone_id := none
            metadata := some (.dirMeta (dotLane cfg v) v (v.1 ^ 2 + v.2 ^ 2)
              cnt obj.class_name obj.bbox) }
        (⟨ww₁, dictSet st.1.last_alert obj.object_id now⟩, st.2 ++ [ev])
      else
        (⟨ww₁, st.1.last_alert⟩, st.2)
    else
      (⟨dictPop st.1.wrong_way obj.object_id, st.1.last_alert⟩, st.2)

/-- Stale-entry cleanup at the end of `DirectionViolationDetector.check`. -/
def dcleanup (objs : List TrackedObject) (st : DirSt) : DirSt :=
  let stale := fun k => k ∈ st.wrong_way.map Prod.fst ∧ ¬ activeIds objs k
  ⟨dictKeep (fun k => ¬ stale k) st.wrong_way, dictKeep (fun k => ¬ stale k) st.last_alert⟩

/-- `DirectionViolationDetector.check`.  Note that the detector receives no
polygon: neither its constructor nor `check` mentions
`direction_zone_polygon`, so every tracked object is examined. -/
def dcheck (cfg : DirCfg) (st : DirSt) (now : ℚ)
    (objs : List TrackedObject) : DirSt × List ViolationEvent :=
  let r := objs.foldl (dstepObj cfg now) (st, [])
  (dcleanup objs r.1, r.2)

/-- A sequence of `DirectionViolationDetector.check` calls. -/
def drun (cfg : DirCfg) (st : DirSt) (calls : List (ℚ × List TrackedObject)) :
    DirSt × List ViolationEvent :=
  calls.foldl (fun acc c =>
    let r := dcheck cfg acc.1 c.1 c.2
    (r.1, acc.2 ++ r.2)) (st, [])

/-! ### Violation manager (`backend/vision/violation_manager.py`) -/

/-- The alert payload POSTed to the API in `ViolationManager._dispatch_alert`. -/
structure AlertPayload where
  violation_type : String
  confidence : ℚ
  object_id : Nat
  snapshot_path : Option String
  zone_id : Option String
  metadata : Option VMeta
  deriving Repr, DecidableEq

/-- The snapshot file path built in `ViolationManager._capture_snapshot`:
`snapshot_dir / violation_type_objectid_timestamp.jpg`. -/
def snapshotPath (snapshotDir tstamp : String) (v : ViolationEvent) : String :=
  snapshotDir ++ "/" ++ v.violation_type ++ "_" ++ toString v.object_id ++
    "_" ++ tstamp ++ ".jpg"

/-- `ViolationManager._capture_snapshot`.  The external effect
`cv2.imwrite(...)` returns a success flag, modelled by `writeOk`; the source
discards that return value, so the path is returned whether or not the
write succeeded. -/
def captureSnapshot (snapshotDir tstamp : String) (v : ViolationEvent)
    (_writeOk : Bool) : String :=
  snapshotPath snapshotDir tstamp v

/-- Mutable state of `ViolationManager`: zone and direction detector states
and the aggregate counters. -/
structure ManagerSt where
  zone : ZoneSt
  dir : DirSt
  total_violations : Nat
  by_type : List (String × Nat)

/-- Increment the per-type counter
(`self._violations_by_type[vtype] = ....get(vtype, 0) + 1`). -/
def bumpType (m : List (String × Nat)) (ty : String) : List (String × Nat) :=
  match m with
  | [] => [(ty, 1)]
  | (t₁, n) :: rest =>
    if t₁ = ty then (t₁, n + 1) :: rest else (t₁, n) :: bumpType rest ty

/-- The per-event dispatch loop of `ViolationManager.check_violations`: for
each event in order, capture a snapshot (whose write outcome is `writeOk i`
for the i-th event) and build the alert payload POSTed by
`_dispatch_alert`, whose `snapshot_path` is the string returned by
`_capture_snapshot`. -/
def buildPayloads (snapshotDir tstamp : String) (writeOk : Nat → Bool)
    (i : Nat) : List ViolationEvent → List AlertPayload
  | [] => []
  | v :: rest =>
    { violation_type := v.violation_type
      confidence := v.confidence
      object_id := v.object_id
      snapshot_path := some (captureSnapshot snapshotDir tstamp v (writeOk i))
      zone_id := v.zone_id
      metadata := v.metadata : AlertPayload } ::
      buildPayloads snapshotDir tstamp writeOk (i + 1) rest

/-- `ViolationManager.check_violations`: run the zone detector then the
direction detector, and for each event in order bump the counters, capture
a snapshot and dispatch an alert payload.  Returns the new state, the
events, and the dispatched payloads. -/
def checkViolations (zc : ZoneCfg) (dc : DirCfg) (m : ManagerSt)
    (snapshotDir tstamp : String) (writeOk : Nat → Bool) (now : ℚ)
    (objs : List TrackedObject) :
    ManagerSt × List ViolationEvent × List AlertPayload :=
  let zr := zcheck zc m.zone now objs
  let dr := dcheck dc m.dir now objs
  let evs := zr.2 ++ dr.2
  let payloads := buildPayloads snapshotDir tstamp writeOk 0 evs
  (⟨zr.1, dr.1, m.total_violations + evs.length,
    evs.foldl (fun acc v => bumpType acc v.violation_type) m.by_type⟩, evs, payloads)

/-! ### Detector pre/post-processing (`backend/vision/detector.py`) -/

/-- Python `int(...)` truncation toward zero on a rational. -/
def pyInt (q : ℚ) : Int :=
  if 0 ≤ q then ⌊q⌋ else ⌈q⌉

/-- The letterbox scale of `_preprocess`:
`scale = min(target_w / w, target_h / h)`. -/
def letterboxScale (targetW targetH w h : Nat) : ℚ :=
  min ((targetW : ℚ) / w) ((targetH : ℚ) / h)

/-- Resized width `new_w = int(w * scale)` of `_preprocess`. -/
def letterboxNewW (targetW targetH w h : Nat) : Int :=
  pyInt ((w : ℚ) * letterboxScale targetW targetH w h)

/-- Resized height `new_h = int(h * scale)` of `_preprocess`. -/
def letterboxNewH (targetW targetH w h : Nat) : Int :=
  pyInt ((h : ℚ) * letterboxScale targetW targetH w h)

/-- Horizontal padding `pad_x = (target_w - new_w) // 2` of `_preprocess`. -/
def letterboxPadX (targetW targetH w h : Nat) : Int :=
  Int.fdiv ((targetW : Int) - letterboxNewW targetW targetH w h) 2

/-- Vertical padding `pad_y = (target_h - new_h) // 2` of `_preprocess`. -/
def letterboxPadY (targetW targetH w h : Nat) : Int :=
  Int.fdiv ((targetH : Int) - letterboxNewH targetW targetH w h) 2

/-- The per-coordinate letterbox removal of `_postprocess`:
`int((x - pad) / scale)`. -/
def rescaleCoord (scale pad x : ℚ) : Int :=
  pyInt ((x - pad) / scale)

/-- The inverse letterbox map, sending an original-frame coordinate back to
model space: `x * scale + pad`. -/
def toModelSpace (scale pad : ℚ) (x : Int) : ℚ :=
  (x : ℚ) * scale + pad

/-- Clamp a coordinate to `[0, bound - 1]`
(`max(0, min(x, orig_w - 1))` in `_postprocess`). -/
def clampCoord (x : Int) (bound : Nat) : Int :=
  max 0 (min x ((bound : Int) - 1))

/-- The recognized vehicle classes `VEHICLE_CLASS_IDS`. -/
def vehicleName (classId : Nat) : Option String :=
  if classId = 2 then some "car"
  else if classId = 3 then some "motorcycle"
  else if classId = 5 then some "bus"
  else if classId = 7 then some "truck"
  else none

/-- First index of the maximal element (`np.argmax` over the class scores). -/
def argmaxScores (scores : List ℚ) : Nat :=
  match scores with
  | [] => 0
  | [_] => 0
  | s :: s₁ :: rest =>
    let j := argmaxScores (s₁ :: rest)
    if (s₁ :: rest).getD j 0 > s then j + 1 else 0

/-- The body of `_postprocess`'s per-row loop: a prediction row is
`(cx, cy, bw, bh)` followed by the class scores; the row is dropped
(`none`) by the confidence filter, the vehicle-class filter or the
degenerate-box filter.  A row with fewer than five entries would crash the
source on unpacking/argmax and is mapped to `none`. -/
def postprocessRow (thr scale padx pady : ℚ) (origW origH : Nat)
    (pred : List ℚ) : Option Detection :=
  match pred with
  | cx :: cy :: bw :: bh :: s₀ :: rest =>
    let scores := s₀ :: rest
    let classId := argmaxScores scores
    let conf := scores.getD classId 0
    if conf < thr then none
    else if (vehicleName classId).isNone then none
    else
      let x₁ := clampCoord (rescaleCoord scale padx (cx - bw / 2)) origW
      let y₁ := clampCoord (rescaleCoord scale pady (cy - bh / 2)) origH
      let x₂ := clampCoord (rescaleCoord scale padx (cx + bw / 2)) origW
      let y₂ := clampCoord (rescaleCoord scale pady (cy + bh / 2)) origH
      if x₂ ≤ x₁ ∨ y₂ ≤ y₁ then none
      else some
        { bbox := (x₁, y₁, x₂, y₂)
          class_id := classId
          class_name := (vehicleName classId).getD ""
          confidence := conf }
  | _ => none

/-- `YOLODetector._postprocess` after the batch squeeze and orientation
transpose: one `Detection` per surviving prediction row. -/
def postprocess (thr scale padx pady : ℚ) (origW origH : Nat)
    (preds : List (List ℚ)) : List Detection :=
  preds.filterMap (postprocessRow thr scale padx pady origW origH)

/-! ## Helper lemmas -/

theorem clampCoord_nonneg (x : Int) (b : Nat) : 0 ≤ clampCoord x b :=
  le_max_left 0 _

theorem clampCoord_le (x y : Int) (b : Nat) (h : clampCoord x b < clampCoord y b) :
    clampCoord y b ≤ (b : Int) - 1 := by
  unfold clampCoord at h ⊢
  rcases le_or_lt 0 ((b : Int) - 1) with hb | hb
  · exact max_le hb (min_le_right _ _)
  · have hx : max 0 (min x ((b : Int) - 1)) = 0 :=
      max_eq_left ((min_le_right _ _).trans hb.le)
    have hy : max 0 (min y ((b : Int) - 1)) = 0 :=
      max_eq_left ((min_le_right _ _).trans hb.le)
    rw [hx, hy] at h
    exact absurd h (lt_irrefl 0)

theorem vehicleName_isSome (cid : Nat) (h : ¬ (vehicleName cid).isNone = true) :
    cid = 2 ∨ cid = 3 ∨ cid = 5 ∨ cid = 7 := by
  unfold vehicleName at h
  split_ifs at h <;> simp_all

theorem pyInt_sub_abs_le (q : ℚ) : |(pyInt q : ℚ) - q| ≤ 1 := by
  unfold pyInt
  split_ifs with h
  · rw [abs_le]
    constructor
    · have h1 : (q : ℚ) - 1 < (⌊q⌋ : ℚ) := by
        exact_mod_cast Int.sub_one_lt_floor q
      linarith
    · have h2 : ((⌊q⌋ : ℤ) : ℚ) ≤ q := Int.floor_le q
      linarith
  · rw [abs_le]
    constructor
    · have h2 : (q : ℚ) ≤ ((⌈q⌉ : ℤ) : ℚ) := Int.le_ceil q
      linarith
    · have h1 : ((⌈q⌉ : ℤ) : ℚ) < q + 1 := Int.ceil_lt_add_one q
      linarith

theorem floor_eq_zero_of_small (q : ℚ) (h0 : 0 ≤ q) (h1 : q < 1) : ⌊q⌋ = 0 :=
  Int.floor_eq_zero_iff.mpr ⟨h0, h1⟩

theorem update_max_disappeared (t : Tracker) (dets : List Detection) :
    (update t dets).max_disappeared = t.max_disappeared := by
  unfold update updateMatch
  split
  · rfl
  · split <;> rfl

theorem update_max_distance (t : Tracker) (dets : List Detection) :
    (update t dets).max_distance = t.max_distance := by
  unfold update updateMatch
  split
  · rfl
  · split <;> rfl

theorem registerAux_mem_disappeared (usedCols : List Nat) (dets : List Detection)
    (c nid : Nat) (p : Nat × TrackedObject)
    (hp : p ∈ (registerAux usedCols c nid dets).1) :
    p.2.disappeared = 0 := by
  induction dets generalizing c nid with
  | nil => simp [registerAux] at hp
  | cons d rest ih =>
    simp only [registerAux] at hp
    split_ifs at hp with hc
    · exact ih _ _ hp
    · rcases List.mem_cons.mp hp with h | h
      · rw [h]; rfl
      · exact ih _ _ h

theorem handleRowsAux_mem_disappeared (maxDis : Nat) (used : List Nat)
    (objs : List (Nat × TrackedObject)) (r : Nat) (p : Nat × TrackedObject)
    (hp : p ∈ handleRowsAux maxDis used r objs)
    (hobjs : ∀ q ∈ objs, q.2.disappeared ≤ maxDis) :
    p.2.disappeared ≤ maxDis := by
  induction objs generalizing r with
  | nil => simp [handleRowsAux] at hp
  | cons q rest ih =>
    simp only [handleRowsAux] at hp
    split_ifs at hp with h₁ h₂
    · rcases List.mem_cons.mp hp with h | h
      · rw [h]; exact hobjs q (List.mem_cons_self q rest)
      · exact ih _ h (fun x hx => hobjs x (List.mem_cons_of_mem _ hx))
    · exact ih _ hp (fun x hx => hobjs x (List.mem_cons_of_mem _ hx))
    · rcases List.mem_cons.mp hp with h | h
      · rw [h]; simpa using Nat.not_lt.mp h₂
      · exact ih _ h (fun x hx => hobjs x (List.mem_cons_of_mem _ hx))

theorem matchStep_mem_disappeared (os : List (Nat × TrackedObject))
    (dets : List Detection) (maxDist : Int) (m : Nat)
    (st : List Nat × List Nat × List (Nat × TrackedObject)) (r : Nat)
    (h : ∀ q ∈ st.2.2, q.2.disappeared ≤ m) :
    ∀ q ∈ (matchStep os dets maxDist st r).2.2, q.2.disappeared ≤ m := by
  simp only [matchStep]
  split_ifs with h₁ h₂
  · exact h
  · exact h
  · intro q hq
    rcases List.mem_map.mp hq with ⟨q₀, hq₀, rfl⟩
    by_cases hk : q₀.1 = (os.getD r default).1
    · simp only [hk, if_pos]
      exact Nat.zero_le m
    · simp only [hk, if_neg, not_false_iff]
      exact h q₀ hq₀

theorem foldl_matchStep_mem_disappeared (os : List (Nat × TrackedObject))
    (dets : List Detection) (maxDist : Int) (m : Nat) (rows : List Nat)
    (st : List Nat × List Nat × List (Nat × TrackedObject))
    (h : ∀ q ∈ st.2.2, q.2.disappeared ≤ m) :
    ∀ q ∈ (rows.foldl (matchStep os dets maxDist) st).2.2,
      q.2.disappeared ≤ m := by
  induction rows generalizing st with
  | nil => exact h
  | cons r rest ih =>
    exact ih _ (matchStep_mem_disappeared os dets maxDist m st r h)

theorem update_mem_disappeared (t : Tracker) (dets : List Detection)
    (h : ∀ p ∈ t.objects, p.2.disappeared ≤ t.max_disappeared) :
    ∀ p ∈ (update t dets).objects, p.2.disappeared ≤ t.max_disappeared := by
  intro p hp
  unfold update at hp
  split_ifs at hp with h₁ h₂
  · rcases List.mem_filter.mp hp with ⟨-, hcond⟩
    simpa using hcond
  · simp only [] at hp
    rcases List.mem_append.mp hp with hm | hm
    · rw [h₂] at hm; simp at hm
    · rw [registerAux_mem_disappeared _ _ _ _ _ hm]
      exact Nat.zero_le _
  · simp only [updateMatch, registerUnmatched] at hp
    rcases List.mem_append.mp hp with hm | hm
    · exact handleRowsAux_mem_disappeared _ _ _ _ _ hm
        (foldl_matchStep_mem_disappeared _ _ _ _ _ _ h)
    · rw [registerAux_mem_disappeared _ _ _ _ _ hm]
      exact Nat.zero_le _

theorem dictGet_set_self {α : Type} (m : List (Nat × α)) (k : Nat) (v : α) :
    dictGet (dictSet m k v) k = some v := by
  induction m with
  | nil => simp [dictSet, dictGet]
  | cons p rest ih =>
    simp only [dictSet]
    by_cases h : p.1 = k
    · rw [if_pos h]
      simp [dictGet, h]
    · rw [if_neg h]
      simp only [dictGet]
      rw [if_neg h, ih]

theorem dictGet_set_ne {α : Type} (m : List (Nat × α)) (k k₁ : Nat) (v : α)
    (h : k₁ ≠ k) : dictGet (dictSet m k v) k₁ = dictGet m k₁ := by
  induction m with
  | nil =>
    simp only [dictSet, dictGet]
    rw [if_neg (fun hk : k = k₁ => h hk.symm)]
  | cons p rest ih =>
    simp only [dictSet]
    by_cases hpk : p.1 = k
    · rw [if_pos hpk]
      have hne : ¬ p.1 = k₁ := by rw [hpk]; exact fun hk => h hk.symm
      simp only [dictGet]
      rw [if_neg hne, if_neg hne]
    · rw [if_neg hpk]
      simp only [dictGet]
      by_cases hpk₁ : p.1 = k₁
      · rw [if_pos hpk₁, if_pos hpk₁]
      · rw [if_neg hpk₁, if_neg hpk₁, ih]

theorem dictGet_pop_self {α : Type} (m : List (Nat × α)) (k : Nat) :
    dictGet (dictPop m k) k = none := by
  induction m with
  | nil => rfl
  | cons p rest ih =>
    simp only [dictPop]
    by_cases h : p.1 = k
    · rw [if_pos h]; exact ih
    · rw [if_neg h]
      simp only [dictGet]
      rw [if_neg h]; exact ih

theorem dictGet_pop_ne {α : Type} (m : List (Nat × α)) (k k₁ : Nat)
    (h : k₁ ≠ k) : dictGet (dictPop m k) k₁ = dictGet m k₁ := by
  induction m with
  | nil => rfl
  | cons p rest ih =>
    simp only [dictPop]
    by_cases hpk : p.1 = k
    · rw [if_pos hpk]
      have hne : ¬ p.1 = k₁ := by rw [hpk]; exact fun hk => h hk.symm
      simp only [dictGet]
      rw [if_neg hne]; exact ih
    · rw [if_neg hpk]
      simp only [dictGet]
      by_cases hpk₁ : p.1 = k₁
      · rw [if_pos hpk₁, if_pos hpk₁]
      · rw [if_neg hpk₁, if_neg hpk₁, ih]

theorem dictGet_keep_pos {α : Type} (keep : Nat → Prop) [DecidablePred keep]
    (m : List (Nat × α)) (k : Nat) (hk : keep k) :
    dictGet (dictKeep keep m) k = dictGet m k := by
  induction m with
  | nil => rfl
  | cons p rest ih =>
    simp only [dictKeep]
    by_cases hkp : keep p.1
    · rw [if_pos hkp]
      simp only [dictGet]
      by_cases hpk : p.1 = k
      · rw [if_pos hpk, if_pos hpk]
      · rw [if_neg hpk, if_neg hpk, ih]
    · rw [if_neg hkp]
      have hpk : ¬ p.1 = k := fun hpk => hkp (hpk ▸ hk)
      simp only [dictGet]
      rw [if_neg hpk, ih]

theorem zstepObj_other (cfg : ZoneCfg) (now : ℚ)
    (st : ZoneSt × List ViolationEvent) (obj : TrackedObject) (k : Nat)
    (hk : obj.object_id ≠ k) :
    dictGet (zstepObj cfg now st obj).1.dwell k = dictGet st.1.dwell k ∧
    dictGet (zstepObj cfg now st obj).1.last_alert k = dictGet st.1.last_alert k := by
  simp only [zstepObj]
  split_ifs with h₁ h₂
  · exact ⟨dictGet_set_ne _ _ _ _ (Ne.symm hk), dictGet_set_ne _ _ _ _ (Ne.symm hk)⟩
  · exact ⟨dictGet_set_ne _ _ _ _ (Ne.symm hk), rfl⟩
  · exact ⟨dictGet_pop_ne _ _ _ (Ne.symm hk), rfl⟩

theorem zfold_other (cfg : ZoneCfg) (now : ℚ) (objs : List TrackedObject)
    (st : ZoneSt × List ViolationEvent) (k : Nat)
    (hk : ∀ o ∈ objs, o.object_id ≠ k) :
    dictGet (objs.foldl (zstepObj cfg now) st).1.dwell k = dictGet st.1.dwell k ∧
    dictGet (objs.foldl (zstepObj cfg now) st).1.last_alert k =
      dictGet st.1.last_alert k := by
  induction objs generalizing st with
  | nil => exact ⟨rfl, rfl⟩
  | cons o rest ih =>
    have ho := zstepObj_other cfg now st o k (hk o (List.mem_cons_self o rest))
    have hr := ih (zstepObj cfg now st o) (fun x hx => hk x (List.mem_cons_of_mem _ hx))
    exact ⟨hr.1.trans ho.1, hr.2.trans ho.2⟩

theorem zstepObj_self_dwell (cfg : ZoneCfg) (now : ℚ)
    (st : ZoneSt × List ViolationEvent) (obj : TrackedObject) :
    (pointInPoly cfg.polygon obj.centroid = true →
      dictGet (zstepObj cfg now st obj).1.dwell obj.object_id =
        some (dictGetD st.1.dwell obj.object_id 0 + 1)) ∧
    (pointInPoly cfg.polygon obj.centroid = false →
      dictGet (zstepObj cfg now st obj).1.dwell obj.object_id = none) := by
  constructor
  · intro hin
    simp only [zstepObj, hin, if_true]
    split_ifs with h₁ <;> exact dictGet_set_self _ _ _
  · intro hout
    simp only [zstepObj, hout]
    rw [if_neg (by simp)]
    exact dictGet_pop_self _ _

theorem zcleanup_get_active (objs : List TrackedObject) (st : ZoneSt) (k : Nat)
    (hk : activeIds objs k) :
    dictGet (zcleanup objs st).dwell k = dictGet st.dwell k ∧
    dictGet (zcleanup objs st).last_alert k = dictGet st.last_alert k := by
  simp only [zcleanup]
  constructor <;> exact dictGet_keep_pos _ _ _ (fun hs => hs.2 hk)

theorem eventTimes_append (a b : List ViolationEvent) (k : Nat) :
    eventTimes (a ++ b) k = eventTimes a k ++ eventTimes b k := by
  induction a with
  | nil => rfl
  | cons e rest ih =>
    simp only [List.cons_append, eventTimes]
    split_ifs <;> simp [ih]

theorem zstepObj_events_other (cfg : ZoneCfg) (now : ℚ)
    (st : ZoneSt × List ViolationEvent) (obj : TrackedObject) (k : Nat)
    (hk : obj.object_id ≠ k) :
    eventTimes (zstepObj cfg now st obj).2 k = eventTimes st.2 k := by
  simp only [zstepObj]
  split_ifs with h₁ h₂
  · rw [eventTimes_append]
    simp [eventTimes, hk]
  · rfl
  · rfl

theorem zstepObj_sepInv (cfg : ZoneCfg) (now : ℚ) (k : Nat)
    (hc : 0 ≤ cfg.cooldown_seconds)
    (st : ZoneSt × List ViolationEvent) (obj : TrackedObject) (ts : List ℚ)
    (h : SepInv cfg.cooldown_seconds (dictGetD st.1.last_alert k 0)
      (ts ++ eventTimes st.2 k)) :
    SepInv cfg.cooldown_seconds
      (dictGetD (zstepObj cfg now st obj).1.last_alert k 0)
      (ts ++ eventTimes (zstepObj cfg now st obj).2 k) := by
  unfold SepInv at h ⊢
  by_cases hk : obj.object_id = k
  · subst hk
    simp only [zstepObj]
    split_ifs with h₁ h₂
    · obtain ⟨hle, hpw⟩ := h
      have hgap : dictGetD st.1.last_alert obj.object_id 0 +
          cfg.cooldown_seconds < now := by linarith [h₂.2]
      rw [eventTimes_append]
      simp only [eventTimes, if_true]
      have hnow : dictGetD (dictSet st.1.last_alert obj.object_id now)
          obj.object_id 0 = now := by
        unfold dictGetD
        rw [dictGet_set_self]
        rfl
      rw [hnow]
      constructor
      · intro t ht
        rw [← List.append_assoc] at ht
        rcases List.mem_append.mp ht with ht₁ | ht₁
        · have h1 := hle t ht₁
          linarith
        · have h2 : t = now := by simpa using ht₁
          simp [h2]
      · rw [← List.append_assoc]
        refine List.pairwise_append.mpr ⟨hpw, List.pairwise_singleton _ _, ?_⟩
        intro t ht now₁ hnow₁
        have hn : now₁ = now := by simpa using hnow₁
        subst hn
        have h1 := hle t ht
        linarith
    · exact h
    · exact h
  · have heq : dictGetD (zstepObj cfg now st obj).1.last_alert k 0 =
        dictGetD st.1.last_alert k 0 := by
      unfold dictGetD
      rw [(zstepObj_other cfg now st obj k hk).2]
    rw [zstepObj_events_other cfg now st obj k hk, heq]
    exact h

theorem zfold_sepInv (cfg : ZoneCfg) (now : ℚ) (k : Nat)
    (hc : 0 ≤ cfg.cooldown_seconds) (objs : List TrackedObject)
    (st : ZoneSt × List ViolationEvent) (ts : List ℚ)
    (h : SepInv cfg.cooldown_seconds (dictGetD st.1.last_alert k 0)
      (ts ++ eventTimes st.2 k)) :
    SepInv cfg.cooldown_seconds
      (dictGetD (objs.foldl (zstepObj cfg now) st).1.last_alert k 0)
      (ts ++ eventTimes (objs.foldl (zstepObj cfg now) st).2 k) := by
  induction objs generalizing st with
  | nil => exact h
  | cons o rest ih =>
    exact ih _ (zstepObj_sepInv cfg now k hc st o ts h)

theorem zcheck_sepInv (cfg : ZoneCfg) (s : ZoneSt) (now : ℚ) (k : Nat)
    (objs : List TrackedObject) (ts : List ℚ)
    (hc : 0 ≤ cfg.cooldown_seconds) (hact : activeIds objs k)
    (h : SepInv cfg.cooldown_seconds (dictGetD s.last_alert k 0) ts) :
    SepInv cfg.cooldown_seconds
      (dictGetD (zcheck cfg s now objs).1.last_alert k 0)
      (ts ++ eventTimes (zcheck cfg s now objs).2 k) := by
  unfold zcheck
  have hfold := zfold_sepInv cfg now k hc objs (s, []) ts
    (by simpa [eventTimes] using h)
  have heq : dictGetD (zcleanup objs
        (objs.foldl (zstepObj cfg now) (s, [])).1).last_alert k 0 =
      dictGetD (objs.foldl (zstepObj cfg now) (s, [])).1.last_alert k 0 := by
    unfold dictGetD
    rw [(zcleanup_get_active objs _ k hact).2]
  rw [heq]
  exact hfold

theorem zrun_sepInv (cfg : ZoneCfg) (k : Nat)
    (hc : 0 ≤ cfg.cooldown_seconds)
    (calls : List (ℚ × List TrackedObject))
    (acc : ZoneSt × List ViolationEvent) (ts : List ℚ)
    (hact : ∀ c ∈ calls, activeIds c.2 k)
    (h : SepInv cfg.cooldown_seconds (dictGetD acc.1.last_alert k 0)
      (ts ++ eventTimes acc.2 k)) :
    SepInv cfg.cooldown_seconds
      (dictGetD (calls.foldl (fun a c =>
        let r := zcheck cfg a.1 c.1 c.2
        (r.1, a.2 ++ r.2)) acc).1.last_alert k 0)
      (ts ++ eventTimes (calls.foldl (fun a c =>
        let r := zcheck cfg a.1 c.1 c.2
        (r.1, a.2 ++ r.2)) acc).2 k) := by
  induction calls generalizing acc with
  | nil => exact h
  | cons c rest ih =>
    simp only [List.foldl_cons]
    have hstep := zcheck_sepInv cfg acc.1 c.1 k c.2
      (ts ++ eventTimes acc.2 k) hc (hact c (List.mem_cons_self c rest)) h
    refine ih ((zcheck cfg acc.1 c.1 c.2).1, acc.2 ++ (zcheck cfg acc.1 c.1 c.2).2)
      (fun x hx => hact x (List.mem_cons_of_mem _ hx)) ?_
    unfold SepInv at hstep ⊢
    rw [eventTimes_append, ← List.append_assoc]
    exact hstep

theorem eventConsecs_append (a b : List ViolationEvent) (k : Nat) :
    eventConsecs (a ++ b) k = eventConsecs a k ++ eventConsecs b k := by
  induction a with
  | nil => rfl
  | cons e rest ih =>
    simp only [List.cons_append, eventConsecs]
    split_ifs <;> simp [ih]

theorem dstepObj_other (cfg : DirCfg) (now : ℚ)
    (st : DirSt × List ViolationEvent) (obj : TrackedObject) (k : Nat)
    (hk : obj.object_id ≠ k) :
    dictGet (dstepObj cfg now st obj).1.wrong_way k = dictGet st.1.wrong_way k ∧
    dictGet (dstepObj cfg now st obj).1.last_alert k = dictGet st.1.last_alert k ∧
    eventConsecs (dstepObj cfg now st obj).2 k = eventConsecs st.2 k := by
  rcases hmv : movementVector cfg obj with - | v
  · simp [dstepObj, hmv]
  · simp only [dstepObj, hmv]
    split_ifs with h₁ h₂
    · refine ⟨dictGet_set_ne _ _ _ _ (Ne.symm hk),
        dictGet_set_ne _ _ _ _ (Ne.symm hk), ?_⟩
      rw [eventConsecs_append]
      simp [eventConsecs, hk]
    · exact ⟨dictGet_set_ne _ _ _ _ (Ne.symm hk), rfl, rfl⟩
    · exact ⟨dictGet_pop_ne _ _ _ (Ne.symm hk), rfl, rfl⟩

theorem dstepObj_monoInv (cfg : DirCfg) (now : ℚ) (k : Nat)
    (st : DirSt × List ViolationEvent) (obj : TrackedObject) (ms : List Nat)
    (hw : obj.object_id = k →
      ∃ v, movementVector cfg obj = some v ∧ dotLane cfg v < 0)
    (h : MonoInv (dictGetD st.1.wrong_way k 0) (ms ++ eventConsecs st.2 k)) :
    MonoInv (dictGetD (dstepObj cfg now st obj).1.wrong_way k 0)
      (ms ++ eventConsecs (dstepObj cfg now st obj).2 k) := by
  unfold MonoInv at h ⊢
  by_cases hk : obj.object_id = k
  · obtain ⟨v, hv, hdot⟩ := hw hk
    subst hk
    simp only [dstepObj, hv]
    rw [if_pos hdot]
    obtain ⟨hle, hpw⟩ := h
    have hcnt : dictGetD (dictSet st.1.wrong_way obj.object_id
        (dictGetD st.1.wrong_way obj.object_id 0 + 1)) obj.object_id 0 =
        dictGetD st.1.wrong_way obj.object_id 0 + 1 := by
      unfold dictGetD
      rw [dictGet_set_self]
      rfl
    split_ifs with h₂
    · rw [eventConsecs_append]
      simp only [eventConsecs, ViolationEvent.consecutiveFrames, if_true]
      rw [hcnt]
      constructor
      · intro n hn
        rw [← List.append_assoc] at hn
        rcases List.mem_append.mp hn with hn₁ | hn₁
        · exact (hle n hn₁).trans (Nat.le_succ _)
        · have h2 : n = dictGetD st.1.wrong_way obj.object_id 0 + 1 := by
            simpa using hn₁
          exact h2.le
      · rw [← List.append_assoc]
        refine List.pairwise_append.mpr ⟨hpw, List.pairwise_singleton _ _, ?_⟩
        intro n hn m hm
        have hm2 : m = dictGetD st.1.wrong_way obj.object_id 0 + 1 := by
          simpa using hm
        subst hm2
        exact Nat.lt_succ_of_le (hle n hn)
    · rw [hcnt]
      exact ⟨fun n hn => (hle n hn).trans (Nat.le_succ _), hpw⟩
  · have hother := dstepObj_other cfg now st obj k hk
    have heq : dictGetD (dstepObj cfg now st obj).1.wrong_way k 0 =
        dictGetD st.1.wrong_way k 0 := by
      unfold dictGetD
      rw [hother.1]
    rw [heq, hother.2.2]
    exact h

theorem dcleanup_get_active (objs : List TrackedObject) (st : DirSt) (k : Nat)
    (hk : activeIds objs k) :
    dictGet (dcleanup objs st).wrong_way k = dictGet st.wrong_way k ∧
    dictGet (dcleanup objs st).last_alert k = dictGet st.last_alert k := by
  simp only [dcleanup]
  constructor <;> exact dictGet_keep_pos _ _ _ (fun hs => hs.2 hk)

theorem dfold_monoInv (cfg : DirCfg) (now : ℚ) (k : Nat)
    (objs : List TrackedObject) (st : DirSt × List ViolationEvent) (ms : List Nat)
    (hw : ∀ obj ∈ objs, obj.object_id = k →
      ∃ v, movementVector cfg obj = some v ∧ dotLane cfg v < 0)
    (h : MonoInv (dictGetD st.1.wrong_way k 0) (ms ++ eventConsecs st.2 k)) :
    MonoInv (dictGetD (objs.foldl (dstepObj cfg now) st).1.wrong_way k 0)
      (ms ++ eventConsecs (objs.foldl (dstepObj cfg now) st).2 k) := by
  induction objs generalizing st with
  | nil => exact h
  | cons o rest ih =>
    exact ih _ (fun x hx => hw x (List.mem_cons_of_mem _ hx))
      (dstepObj_monoInv cfg now k st o ms (hw o (List.mem_cons_self o rest)) h)

theorem dcheck_monoInv (cfg : DirCfg) (s : DirSt) (now : ℚ) (k : Nat)
    (objs : List TrackedObject) (ms : List Nat)
    (hact : activeIds objs k)
    (hw : ∀ obj ∈ objs, obj.object_id = k →
      ∃ v, movementVector cfg obj = some v ∧ dotLane cfg v < 0)
    (h : MonoInv (dictGetD s.wrong_way k 0) ms) :
    MonoInv (dictGetD (dcheck cfg s now objs).1.wrong_way k 0)
      (ms ++ eventConsecs (dcheck cfg s now objs).2 k) := by
  unfold dcheck
  have hfold := dfold_monoInv cfg now k objs (s, []) ms hw
    (by simpa [eventConsecs] using h)
  have heq : dictGetD (dcleanup objs
        (objs.foldl (dstepObj cfg now) (s, [])).1).wrong_way k 0 =
      dictGetD (objs.foldl (dstepObj cfg now) (s, [])).1.wrong_way k 0 := by
    unfold dictGetD
    rw [(dcleanup_get_active objs _ k hact).1]
  rw [heq]
  exact hfold

theorem drun_monoInv (cfg : DirCfg) (k : Nat)
    (calls : List (ℚ × List TrackedObject))
    (acc : DirSt × List ViolationEvent) (ms : List Nat)
    (hact : ∀ c ∈ calls, activeIds c.2 k)
    (hw : ∀ c ∈ calls, ∀ obj ∈ c.2, obj.object_id = k →
      ∃ v, movementVector cfg obj = some v ∧ dotLane cfg v < 0)
    (h : MonoInv (dictGetD acc.1.wrong_way k 0) (ms ++ eventConsecs acc.2 k)) :
    MonoInv (dictGetD (calls.foldl (fun a c =>
        let r := dcheck cfg a.1 c.1 c.2
        (r.1, a.2 ++ r.2)) acc).1.wrong_way k 0)
      (ms ++ eventConsecs (calls.foldl (fun a c =>
        let r := dcheck cfg a.1 c.1 c.2
        (r.1, a.2 ++ r.2)) acc).2 k) := by
  induction calls generalizing acc with
  | nil => exact h
  | cons c rest ih =>
    simp only [List.foldl_cons]
    have hstep := dcheck_monoInv cfg acc.1 c.1 k c.2
      (ms ++ eventConsecs acc.2 k) (hact c (List.mem_cons_self c rest))
      (hw c (List.mem_cons_self c rest)) h
    refine ih ((dcheck cfg acc.1 c.1 c.2).1, acc.2 ++ (dcheck cfg acc.1 c.1 c.2).2)
      (fun x hx => hact x (List.mem_cons_of_mem _ hx))
      (fun x hx => hw x (List.mem_cons_of_mem _ hx)) ?_
    unfold MonoInv at hstep ⊢
    rw [eventConsecs_append, ← List.append_assoc]
    exact hstep

theorem sqDist_nonneg (a b : Int × Int) : 0 ≤ sqDist a b :=
  add_nonneg (sq_nonneg _) (sq_nonneg _)

theorem sqDist_eq_zero (a b : Int × Int) (h : sqDist a b = 0) : a = b := by
  unfold sqDist at h
  have h₁ : (a.1 - b.1) ^ 2 = 0 ∧ (a.2 - b.2) ^ 2 = 0 := by
    constructor <;> nlinarith [sq_nonneg (a.1 - b.1), sq_nonneg (a.2 - b.2)]
  have h₂ : a.1 = b.1 := by nlinarith [h₁.1]
  have h₃ : a.2 = b.2 := by nlinarith [h₁.2]
  exact Prod.ext h₂ h₃

theorem sqDist_self (a : Int × Int) : sqDist a a = 0 := by
  unfold sqDist
  ring

theorem update_nil_objects (t : Tracker) :
    (update t []).objects = (t.objects.map (fun p =>
      (p.1, { p.2 with disappeared := p.2.disappeared + 1 }))).filter
      (fun p => ¬ p.2.disappeared > t.max_disappeared) := by
  unfold update
  rw [if_pos rfl]

theorem update_nil_next_id (t : Tracker) :
    (update t []).next_object_id = t.next_object_id := by
  unfold update
  rw [if_pos rfl]

theorem emptyRun_params (t : Tracker) (k : Nat) :
    (runUpdates t (List.replicate k [])).max_disappeared = t.max_disappeared ∧
    (runUpdates t (List.replicate k [])).max_distance = t.max_distance ∧
    (runUpdates t (List.replicate k [])).next_object_id = t.next_object_id := by
  induction k generalizing t with
  | zero => exact ⟨rfl, rfl, rfl⟩
  | succ n ih =>
    rw [List.replicate_succ]
    unfold runUpdates at ih ⊢
    rw [List.foldl_cons]
    rcases ih (update t []) with ⟨h₁, h₂, h₃⟩
    exact ⟨h₁.trans (update_max_disappeared t []),
      h₂.trans (update_max_distance t []),
      h₃.trans (update_nil_next_id t)⟩

theorem emptyRun_mem (t : Tracker) (k : Nat) (i : Nat) (o : TrackedObject)
    (hmem : (i, o) ∈ t.objects) (hk : o.disappeared + k ≤ t.max_disappeared) :
    (i, { o with disappeared := o.disappeared + k }) ∈
      (runUpdates t (List.replicate k [])).objects := by
  induction k generalizing t o with
  | zero => simpa using hmem
  | succ n ih =>
    rw [List.replicate_succ]
    unfold runUpdates
    rw [List.foldl_cons]
    have hstep : (i, { o with disappeared := o.disappeared + 1 }) ∈
        (update t []).objects := by
      rw [update_nil_objects]
      refine List.mem_filter.mpr ⟨?_, ?_⟩
      · exact List.mem_map_of_mem
          (fun p => (p.1, { p.2 with disappeared := p.2.disappeared + 1 })) hmem
      · simp only [decide_eq_true_eq]
        omega
    have hbound : ({ o with disappeared := o.disappeared + 1 }).disappeared + n ≤
        (update t []).max_disappeared := by
      rw [update_max_disappeared]
      simp only []
      omega
    have := ih (update t []) ({ o with disappeared := o.disappeared + 1 })
      hstep hbound
    have heq : ({ o with disappeared := o.disappeared + 1 + n } : TrackedObject) =
        { o with disappeared := o.disappeared + (n + 1) } := by
      have : o.disappeared + 1 + n = o.disappeared + (n + 1) := by omega
      rw [this]
    unfold runUpdates at this
    rwa [heq] at this

theorem emptyRun_mem_rev (t : Tracker) (k : Nat) (q : Nat × TrackedObject)
    (hq : q ∈ (runUpdates t (List.replicate k [])).objects) :
    ∃ p ∈ t.objects, q.1 = p.1 ∧ q.2.centroid = p.2.centroid := by
  induction k generalizing t with
  | zero => exact ⟨q, by simpa using hq, rfl, rfl⟩
  | succ n ih =>
    rw [List.replicate_succ] at hq
    unfold runUpdates at hq
    rw [List.foldl_cons] at hq
    obtain ⟨p₁, hp₁, hkey, hcent⟩ := ih (update t []) (by exact hq)
    rw [update_nil_objects] at hp₁
    obtain ⟨hp₂, -⟩ := List.mem_filter.mp hp₁
    obtain ⟨p₀, hp₀, hmap⟩ := List.mem_map.mp hp₂
    refine ⟨p₀, hp₀, ?_, ?_⟩
    · rw [hkey, ← hmap]
    · rw [hcent, ← hmap]

theorem insertIdx_perm (key : Nat → Int) (i : Nat) (l : List Nat) :
    List.Perm (insertIdx key i l) (i :: l) := by
  induction l with
  | nil => exact List.Perm.refl _
  | cons j rest ih =>
    unfold insertIdx
    split_ifs with h
    · exact (ih.cons j).trans (List.Perm.swap i j rest)
    · exact List.Perm.refl _

theorem argsort_perm (key : Nat → Int) (l : List Nat) :
    List.Perm (argsort key l) l := by
  induction l with
  | nil => exact List.Perm.refl _
  | cons i rest ih =>
    unfold argsort
    exact (insertIdx_perm key i (argsort key rest)).trans (ih.cons i)

theorem insertIdx_sorted (key : Nat → Int) (i : Nat) (l : List Nat)
    (h : l.Sorted (fun a b => key a ≤ key b)) :
    (insertIdx key i l).Sorted (fun a b => key a ≤ key b) := by
  induction l with
  | nil => simp [insertIdx]
  | cons j rest ih =>
    rcases List.sorted_cons.mp h with ⟨hj, hrest⟩
    unfold insertIdx
    split_ifs with hlt
    · refine List.sorted_cons.mpr ⟨?_, ih hrest⟩
      intro b hb
      rcases List.mem_cons.mp ((insertIdx_perm key i rest).mem_iff.mp hb) with hb₁ | hb₁
      · rw [hb₁]; exact hlt.le
      · exact hj b hb₁
    · refine List.sorted_cons.mpr ⟨?_, h⟩
      intro b hb
      rcases List.mem_cons.mp hb with hb₁ | hb₁
      · rw [hb₁]; exact not_lt.mp hlt
      · exact (not_lt.mp hlt).trans (hj b hb₁)

theorem argsort_sorted (key : Nat → Int) (l : List Nat) :
    (argsort key l).Sorted (fun a b => key a ≤ key b) := by
  induction l with
  | nil => simp [argsort]
  | cons i rest ih =>
    unfold argsort
    exact insertIdx_sorted key i (argsort key rest) ih

theorem distMatrix_nonneg (os : List (Nat × TrackedObject))
    (dets : List Detection) (r c : Nat) : 0 ≤ distMatrix os dets r c :=
  sqDist_nonneg _ _

theorem rowArgmin_single (os : List (Nat × TrackedObject)) (d : Detection)
    (r : Nat) : rowArgmin os [d] r = 0 :=
  rfl

theorem foldl_matchStep_single_skip (os : List (Nat × TrackedObject))
    (d : Detection) (maxDist : Int) (rows : List Nat)
    (st : List Nat × List Nat × List (Nat × TrackedObject))
    (h0 : (0 : Nat) ∈ st.2.1) :
    rows.foldl (matchStep os [d] maxDist) st = st := by
  induction rows with
  | nil => rfl
  | cons r rest ih =>
    rw [List.foldl_cons]
    have hstep : matchStep os [d] maxDist st r = st := by
      simp only [matchStep, rowArgmin_single]
      rw [if_pos (Or.inr h0)]
    rw [hstep]
    exact ih

theorem foldl_matchStep_single_head (os : List (Nat × TrackedObject))
    (d : Detection) (maxDist : Int) (r₁ : Nat) (rest : List Nat)
    (h : ¬ tooFar maxDist (distMatrix os [d] r₁ 0)) :
    (r₁ :: rest).foldl (matchStep os [d] maxDist) ([], [], os) =
      ([r₁], [0], os.map (fun p =>
        if p.1 = (os.getD r₁ default).1 then (p.1, assocUpdate p.2 d) else p)) := by
  rw [List.foldl_cons]
  have hstep : matchStep os [d] maxDist ([], [], os) r₁ =
      ([r₁], [0], os.map (fun p =>
        if p.1 = (os.getD r₁ default).1 then (p.1, assocUpdate p.2 d) else p)) := by
    simp only [matchStep, rowArgmin_single]
    rw [if_neg (by simp), if_neg h]
    rfl
  rw [hstep]
  exact foldl_matchStep_single_skip os d maxDist rest _ (by simp)

theorem handleRowsAux_mem_used (maxDis : Nat) (used : List Nat)
    (objs : List (Nat × TrackedObject)) (start r : Nat)
    (hr : r < objs.length) (hused : start + r ∈ used) :
    objs.getD r default ∈ handleRowsAux maxDis used start objs := by
  induction objs generalizing start r with
  | nil => simp at hr
  | cons q rest ih =>
    rcases r with - | r₂
    · have h0 : start ∈ used := by simpa using hused
      simp only [handleRowsAux]
      rw [if_pos h0]
      exact List.mem_cons_self _ _
    · have hic := ih (start + 1) r₂ (by simpa using hr)
        (by
          have hadd : start + 1 + r₂ = start + (r₂ + 1) := by omega
          rw [hadd]
          exact hused)
      have hg : (q :: rest).getD (r₂ + 1) default = rest.getD r₂ default := rfl
      rw [hg]
      simp only [handleRowsAux]
      split_ifs with h₁ h₂
      · exact List.mem_cons_of_mem _ hic
      · exact hic
      · exact List.mem_cons_of_mem _ hic

theorem registerAux_single_used (nid : Nat) (d : Detection) :
    registerAux [0] 0 nid [d] = ([], nid) := by
  simp [registerAux]

theorem getD_map_tracked (os : List (Nat × TrackedObject))
    (f : Nat × TrackedObject → Nat × TrackedObject) (r : Nat)
    (hr : r < os.length) :
    (os.map f).getD r default = f (os.getD r default) := by
  rw [List.getD_eq_get _ _ (by simpa using hr), List.getD_eq_get _ _ hr]
  simp

theorem getD_mem_tracked (l : List (Nat × TrackedObject)) (r : Nat)
    (hr : r < l.length) : l.getD r default ∈ l := by
  rw [List.getD_eq_get _ _ hr]
  exact List.get_mem _ _ _

theorem update_single_matches (t : Tracker) (i : Nat) (d : Detection)
    (o : TrackedObject)
    (hmd : 0 ≤ t.max_distance)
    (hmem : (i, o) ∈ t.objects) (hc : o.centroid = d.center)
    (huniq : ∀ p ∈ t.objects, p.2.centroid = d.center → p.1 = i) :
    (∃ o₂, (i, o₂) ∈ (update t [d]).objects ∧ o₂.centroid = d.center ∧
      o₂.disappeared = 0) ∧
    (update t [d]).next_object_id = t.next_object_id := by
  have hne : t.objects ≠ [] := by
    intro h
    rw [h] at hmem
    simp at hmem
  have hupd : update t [d] = updateMatch t [d] := by
    unfold update
    rw [if_neg (by simp), if_neg hne]
  rw [hupd]
  set os := t.objects with hos
  have hmem₂ : (i, o) ∈ os := hmem
  obtain ⟨n₀, hn₀⟩ := List.mem_iff_get.mp hmem₂
  set key : Nat → Int :=
    fun r => distMatrix os [d] r (rowArgmin os [d] r) with hkeydef
  have hkey_eq : ∀ r, key r = distMatrix os [d] r 0 := by
    intro r
    rw [hkeydef]
    simp only [rowArgmin_single]
  have hlen : 0 < os.length := List.length_pos.mpr hne
  obtain ⟨r₁, rest, hrows⟩ :
      ∃ r₁ rest, argsort key (List.range os.length) = r₁ :: rest := by
    cases harg : argsort key (List.range os.length) with
    | nil =>
      exfalso
      have hperm := argsort_perm key (List.range os.length)
      rw [harg] at hperm
      have hlen₂ := hperm.length_eq
      simp only [List.length_nil, List.length_range] at hlen₂
      omega
    | cons a b => exact ⟨a, b, rfl⟩
  have hr₀lt : (n₀ : Nat) < os.length := n₀.isLt
  have hget₀ : os.getD (n₀ : Nat) default = (i, o) := by
    rw [List.getD_eq_get _ _ hr₀lt]
    simpa using hn₀
  have hkey₀ : key (n₀ : Nat) = 0 := by
    rw [hkey_eq]
    show sqDist (os.getD (n₀ : Nat) default).2.centroid
      (([d] : List Detection).getD 0 default).center = 0
    rw [hget₀]
    show sqDist o.centroid d.center = 0
    rw [hc]
    exact sqDist_self _
  have hmem₀ : (n₀ : Nat) ∈ argsort key (List.range os.length) :=
    (argsort_perm key _).mem_iff.mpr (List.mem_range.mpr hr₀lt)
  have hsorted := argsort_sorted key (List.range os.length)
  rw [hrows] at hsorted hmem₀
  have hkey₁_le : key r₁ ≤ 0 := by
    rcases List.mem_cons.mp hmem₀ with h₁ | h₁
    · rw [← h₁, hkey₀]
    · have := (List.sorted_cons.mp hsorted).1 _ h₁
      rw [hkey₀] at this
      exact this
  have hkey₁_ge : 0 ≤ key r₁ := by
    rw [hkey_eq]
    exact distMatrix_nonneg _ _ _ _
  have hkey₁ : distMatrix os [d] r₁ 0 = 0 := by
    rw [← hkey_eq]
    exact le_antisymm hkey₁_le hkey₁_ge
  have hr₁lt : r₁ < os.length := by
    have : r₁ ∈ List.range os.length :=
      (argsort_perm key _).subset (hrows ▸ List.mem_cons_self r₁ rest)
    exact List.mem_range.mp this
  have hcent₁ : (os.getD r₁ default).2.centroid = d.center := by
    have hkey₁d : sqDist (os.getD r₁ default).2.centroid d.center = 0 := hkey₁
    exact sqDist_eq_zero _ _ hkey₁d
  have hkeyi : (os.getD r₁ default).1 = i :=
    huniq _ (getD_mem_tracked os r₁ hr₁lt) hcent₁
  have hskip : ¬ tooFar t.max_distance (distMatrix os [d] r₁ 0) := by
    simp only [tooFar, not_or, not_lt]
    refine ⟨hmd, ?_⟩
    rw [hkey₁]
    positivity
  simp only [updateMatch]
  rw [← hos, ← hkeydef, hrows,
    foldl_matchStep_single_head os d t.max_distance r₁ rest hskip]
  simp only [registerUnmatched, handleUnmatchedRows]
  rw [registerAux_single_used]
  constructor
  · refine ⟨assocUpdate (os.getD r₁ default).2 d, ?_, rfl, rfl⟩
    simp only [List.append_nil]
    have hmemb := handleRowsAux_mem_used t.max_disappeared [r₁]
      (os.map (fun p =>
        if p.1 = (os.getD r₁ default).1 then (p.1, assocUpdate p.2 d) else p))
      0 r₁ (by simpa using hr₁lt) (by simp)
    rw [getD_map_tracked _ _ _ hr₁lt, if_pos rfl] at hmemb
    rw [← hkeyi]
    exact hmemb
  · rfl

theorem specRowInfo_third (os : List (Nat × TrackedObject))
    (dets : List Detection) (r : Nat) :
    (specRowInfo os dets r).2.2 = distMatrix os dets r (rowArgmin os dets r) :=
  rfl

theorem specInsert_map (os : List (Nat × TrackedObject)) (dets : List Detection)
    (i : Nat) (l : List Nat) :
    specInsert (specRowInfo os dets i) (l.map (specRowInfo os dets)) =
      (insertIdx (fun r => distMatrix os dets r (rowArgmin os dets r)) i l).map
        (specRowInfo os dets) := by
  induction l with
  | nil => rfl
  | cons j rest ih =>
    simp only [List.map_cons, specInsert, insertIdx, specRowInfo_third]
    split_ifs with h
    · rw [ih]
      simp
    · simp

theorem specSort_map (os : List (Nat × TrackedObject)) (dets : List Detection)
    (l : List Nat) :
    specSort (l.map (specRowInfo os dets)) =
      (argsort (fun r => distMatrix os dets r (rowArgmin os dets r)) l).map
        (specRowInfo os dets) := by
  induction l with
  | nil => rfl
  | cons i rest ih =>
    simp only [List.map_cons, specSort, argsort]
    rw [ih]
    exact specInsert_map os dets i _

theorem specWalkStep_eq (os : List (Nat × TrackedObject)) (dets : List Detection)
    (maxDist : Int) (st : List Nat × List Nat × List (Nat × TrackedObject))
    (r : Nat) :
    specWalkStep os dets maxDist st (specRowInfo os dets r) =
      matchStep os dets maxDist st r :=
  rfl

theorem buildPayloads_writeOk_irrel (snapshotDir tstamp : String)
    (ok₁ ok₂ : Nat → Bool) (i j : Nat) (evs : List ViolationEvent) :
    buildPayloads snapshotDir tstamp ok₁ i evs =
      buildPayloads snapshotDir tstamp ok₂ j evs := by
  induction evs generalizing i j with
  | nil => rfl
  | cons v rest ih =>
    simp only [buildPayloads, captureSnapshot]
    rw [ih (i + 1) (j + 1)]

theorem buildPayloads_snapshot_path (snapshotDir tstamp : String)
    (ok : Nat → Bool) (i : Nat) (evs : List ViolationEvent) :
    (buildPayloads snapshotDir tstamp ok i evs).map AlertPayload.snapshot_path =
      evs.map (fun v => some (snapshotPath snapshotDir tstamp v)) := by
  induction evs generalizing i with
  | nil => rfl
  | cons v rest ih =>
    simp only [buildPayloads, captureSnapshot, List.map_cons]
    rw [ih (i + 1)]

/-- Claim C2: every `Detection` emitted by `_postprocess` has a bounding
box with `0 ≤ x1 < x2 ≤ w − 1` and `0 ≤ y1 < y2 ≤ h − 1` in the original
frame, a vehicle `class_id` in `{2, 3, 5, 7}`, and
`confidence ≥ confidence_threshold`. -/
theorem postprocess_bounds (thr scale padx pady : ℚ) (origW origH : Nat)
    (preds : List (List ℚ)) (d : Detection)
    (hd : d ∈ postprocess thr scale padx pady origW origH preds) :
    (0 ≤ d.bbox.1 ∧ d.bbox.1 < d.bbox.2.2.1 ∧ d.bbox.2.2.1 ≤ (origW : Int) - 1) ∧
    (0 ≤ d.bbox.2.1 ∧ d.bbox.2.1 < d.bbox.2.2.2 ∧ d.bbox.2.2.2 ≤ (origH : Int) - 1) ∧
    (d.class_id = 2 ∨ d.class_id = 3 ∨ d.class_id = 5 ∨ d.class_id = 7) ∧
    thr ≤ d.confidence := by
  unfold postprocess at hd
  rcases List.mem_filterMap.mp hd with ⟨row, -, hrow⟩
  rcases row with - | ⟨cx, row⟩
  · exact absurd hrow (by simp [postprocessRow])
  rcases row with - | ⟨cy, row⟩
  · exact absurd hrow (by simp [postprocessRow])
  rcases row with - | ⟨bw, row⟩
  · exact absurd hrow (by simp [postprocessRow])
  rcases row with - | ⟨bh, row⟩
  · exact absurd hrow (by simp [postprocessRow])
  rcases row with - | ⟨s₀, rest⟩
  · exact absurd hrow (by simp [postprocessRow])
  simp only [postprocessRow] at hrow
  split_ifs at hrow with h₁ h₂ h₃ ; cases hrow
  push_neg at h₃
  refine ⟨⟨clampCoord_nonneg _ _, h₃.1, clampCoord_le _ _ _ h₃.1⟩,
    ⟨clampCoord_nonneg _ _, h₃.2, clampCoord_le _ _ _ h₃.2⟩,
    vehicleName_isSome _ h₂, not_lt.mp h₁⟩

/-- Witness for C2: a concrete prediction row that survives all filters
with scale 1, no padding, a 640 × 640 frame and threshold 0.45. -/
theorem postprocess_bounds_witness :
    (0 ≤ (80 : Int) ∧ (80 : Int) < 120 ∧ (120 : Int) ≤ (640 : Int) - 1) ∧
    (0 ≤ (80 : Int) ∧ (80 : Int) < 120 ∧ (120 : Int) ≤ (640 : Int) - 1) ∧
    ((2 : Nat) = 2 ∨ (2 : Nat) = 3 ∨ (2 : Nat) = 5 ∨ (2 : Nat) = 7) ∧
    (45/100 : ℚ) ≤ (9/10 : ℚ) := by
  have hrow : postprocessRow (45/100) 1 0 0 640 640 [100, 100, 40, 40, 0, 0, 9/10] =
      some ⟨(80, 80, 120, 120), 2, "car", 9/10⟩ := by
    have hargmax : argmaxScores [0, 0, 9/10] = 2 := by norm_num [argmaxScores]
    simp only [postprocessRow, hargmax]
    norm_num [vehicleName, clampCoord, rescaleCoord, pyInt]
  have hm : (⟨(80, 80, 120, 120), 2, "car", 9/10⟩ : Detection) ∈
      postprocess (45/100) 1 0 0 640 640 [[100, 100, 40, 40, 0, 0, 9/10]] := by
    simp [postprocess, hrow]
  exact postprocess_bounds (45/100) 1 0 0 640 640 _ _ hm

/-- Claim C3, amended: the letterbox round-trip (original-space coordinate
obtained by `int((x − pad) / scale)`, mapped back to model space by
`X * scale + pad`) recovers the original model-space coordinate to within
±1 pixel whenever the frame's larger dimension is at least the 640 × 640
model-input size, i.e. whenever the letterbox scale is at most 1.  In
general the error is bounded by the scale, which exceeds 1 for frames
smaller than the model input (see the counterexample).  The statement
quantifies over an arbitrary rational `pad`; the computed paddings
`letterboxPadX`/`letterboxPadY` are instances. -/
theorem letterbox_roundtrip (w h : Nat) (hw : 1 ≤ w) (hh : 1 ≤ h)
    (hbig : 640 ≤ max w h) (pad x : ℚ) :
    |toModelSpace (letterboxScale 640 640 w h) pad
        (rescaleCoord (letterboxScale 640 640 w h) pad x) - x| ≤ 1 := by
  have hw0 : (0 : ℚ) < (w : ℚ) := by exact_mod_cast hw
  have hh0 : (0 : ℚ) < (h : ℚ) := by exact_mod_cast hh
  have hs0 : 0 < letterboxScale 640 640 w h := by
    unfold letterboxScale
    exact lt_min (by positivity) (by positivity)
  have hs1 : letterboxScale 640 640 w h ≤ 1 := by
    unfold letterboxScale
    rcases le_total w h with hwh | hwh
    · have hbig2 : (640 : ℚ) ≤ (h : ℚ) := by
        have := hbig
        rw [max_eq_right hwh] at this
        exact_mod_cast this
      exact (min_le_right _ _).trans (by rw [div_le_one hh0]; exact hbig2)
    · have hbig2 : (640 : ℚ) ≤ (w : ℚ) := by
        have := hbig
        rw [max_eq_left hwh] at this
        exact_mod_cast this
      exact (min_le_left _ _).trans (by rw [div_le_one hw0]; exact hbig2)
  set s := letterboxScale 640 640 w h with hs
  have hkey : toModelSpace s pad (rescaleCoord s pad x) - x =
      ((pyInt ((x - pad) / s) : ℚ) - (x - pad) / s) * s := by
    unfold toModelSpace rescaleCoord
    field_simp
    ring
  rw [hkey, abs_mul, abs_of_pos hs0]
  calc |(pyInt ((x - pad) / s) : ℚ) - (x - pad) / s| * s ≤ 1 * 1 :=
        mul_le_mul (pyInt_sub_abs_le _) hs1 hs0.le zero_le_one
    _ = 1 := one_mul 1

/-- Counterexample for C3 as stated: for a 160 × 160 frame the letterbox
scale is 4, and the model-space coordinate 3.9 maps to original coordinate
`int(3.9 / 4) = 0` and back to 0, an error of 3.9 pixels. -/
theorem letterbox_roundtrip_cex :
    1 <
      |toModelSpace (letterboxScale 640 640 160 160)
          ((letterboxPadX 640 640 160 160 : Int) : ℚ)
          (rescaleCoord (letterboxScale 640 640 160 160)
            ((letterboxPadX 640 640 160 160 : Int) : ℚ) (39/10)) - 39/10| := by
  have hscale : letterboxScale 640 640 160 160 = 4 := by
    norm_num [letterboxScale]
  have hnew : letterboxNewW 640 640 160 160 = 640 := by
    rw [letterboxNewW, hscale]
    norm_num [pyInt]
  have hpad : letterboxPadX 640 640 160 160 = 0 := by
    rw [letterboxPadX, hnew]
    norm_num [Int.fdiv]
  have hresc : rescaleCoord 4 0 (39/10) = 0 := by
    unfold rescaleCoord pyInt
    rw [if_pos (by norm_num)]
    exact floor_eq_zero_of_small _ (by norm_num) (by norm_num)
  rw [hscale, hpad]
  push_cast
  rw [hresc]
  norm_num [toModelSpace]
  rw [abs_of_pos] <;> norm_num

/-- Witness for C3 (amended): a 1280 × 720 frame (scale 1/2) and the
model-space coordinate 100.3. -/
theorem letterbox_roundtrip_witness :
    |toModelSpace (letterboxScale 640 640 1280 720) 0
        (rescaleCoord (letterboxScale 640 640 1280 720) 0 (1003/10)) - 1003/10| ≤ 1 :=
  letterbox_roundtrip 1280 720 (by norm_num) (by norm_num) (by norm_num) 0 (1003/10)

/-- Claim C4: across any sequence of `update` calls starting from a fresh
tracker, every `TrackedObject` in the tracker's mapping (hence in the
returned list `list(self.objects.values())`) has
`disappeared ≤ max_disappeared`; a track whose counter would exceed the
threshold is deregistered within the same `update` call. -/
theorem tracker_disappeared_bounded (maxDis : Nat) (maxDist : Int)
    (frames : List (List Detection)) (p : Nat × TrackedObject)
    (hp : p ∈ (runUpdates (Tracker.init maxDis maxDist) frames).objects) :
    p.2.disappeared ≤ maxDis := by
  suffices h : ∀ t : Tracker,
      (∀ q ∈ t.objects, q.2.disappeared ≤ t.max_disappeared) →
      t.max_disappeared = maxDis →
      ∀ q ∈ (runUpdates t frames).objects, q.2.disappeared ≤ maxDis by
    exact h (Tracker.init maxDis maxDist) (by simp [Tracker.init]) rfl p hp
  clear hp p
  induction frames with
  | nil =>
    intro t ht hm q hq
    exact hm ▸ ht q hq
  | cons f rest ih =>
    intro t ht hm q hq
    refine ih (update t f) ?_ ?_ q hq
    · rw [update_max_disappeared]
      exact update_mem_disappeared t f ht
    · rw [update_max_disappeared, hm]

/-- Witness for C4: one frame registering a single car; the registered
track has `disappeared = 0 ≤ 30`. -/
theorem tracker_disappeared_bounded_witness :
    (mkTracked 0 ⟨(100, 200, 200, 300), 2, "car", 1⟩).disappeared ≤ 30 :=
  tracker_disappeared_bounded 30 80 [[⟨(100, 200, 200, 300), 2, "car", 1⟩]]
    (0, mkTracked 0 ⟨(100, 200, 200, 300), 2, "car", 1⟩) (by decide)

/-- Claim C7: in each `ZoneViolationDetector.check` call (over tracked
objects with distinct ids, as the tracker produces), an object whose
centroid is inside the polygon has its dwell count incremented — starting
at 1 on first entry, since the previous count defaults to 0 — and an
object whose centroid is outside has its dwell entry removed, so that
re-entering restarts the count from 1. -/
theorem zone_dwell_transitions (cfg : ZoneCfg) (st : ZoneSt) (now : ℚ)
    (objs : List TrackedObject) (obj : TrackedObject)
    (hnd : (objs.map TrackedObject.object_id).Nodup) (hmem : obj ∈ objs) :
    (pointInPoly cfg.polygon obj.centroid = true →
      dictGet (zcheck cfg st now objs).1.dwell obj.object_id =
        some (dictGetD st.dwell obj.object_id 0 + 1)) ∧
    (pointInPoly cfg.polygon obj.centroid = false →
      dictGet (zcheck cfg st now objs).1.dwell obj.object_id = none) := by
  rcases List.append_of_mem hmem with ⟨l₁, l₂, rfl⟩
  have hact : activeIds (l₁ ++ obj :: l₂) obj.object_id := by
    unfold activeIds
    exact List.mem_map_of_mem _ hmem
  rw [List.map_append, List.map_cons] at hnd
  have hnd₂ := (List.nodup_append.mp hnd).2.1
  have hdisj := (List.nodup_append.mp hnd).2.2
  have hl₂ : ∀ o ∈ l₂, o.object_id ≠ obj.object_id := by
    intro o ho he
    exact (List.nodup_cons.mp hnd₂).1 (he ▸ List.mem_map_of_mem _ ho)
  have hl₁ : ∀ o ∈ l₁, o.object_id ≠ obj.object_id := by
    intro o ho he
    exact hdisj (List.mem_map_of_mem _ ho)
      (he ▸ List.mem_cons_self _ _)
  unfold zcheck
  rw [List.foldl_append, List.foldl_cons]
  set st₁ := l₁.foldl (zstepObj cfg now) (st, []) with hst₁
  set st₂ := zstepObj cfg now st₁ obj with hst₂
  have hfold₁ := zfold_other cfg now l₁ (st, []) obj.object_id hl₁
  have hfold₂ := zfold_other cfg now l₂ st₂ obj.object_id hl₂
  have hclean := zcleanup_get_active (l₁ ++ obj :: l₂)
    (l₂.foldl (zstepObj cfg now) st₂).1 obj.object_id hact
  have hstep := zstepObj_self_dwell cfg now st₁ obj
  constructor
  · intro hin
    rw [hclean.1, hfold₂.1, hstep.1 hin]
    unfold dictGetD
    rw [hfold₁.1]
  · intro hout
    rw [hclean.1, hfold₂.1, hstep.2 hout]

/-- Claim C10, amended: emitting a WRONG_WAY event does not reset the
per-object consecutive wrong-way counter (`check` only removes it on a
nonnegative dot product or when the id leaves the active set), so in any
run in which the object stays in the active set and has a computable
movement vector with negative dot product at every call, successive
WRONG_WAY events for it report strictly increasing `consecutive_frames`.
Without that proviso a correct-direction frame between the events resets
the counter and the second event can report an equal or smaller value
(see the counterexample). -/
theorem wrong_way_consec_increasing (cfg : DirCfg) (st : DirSt)
    (calls : List (ℚ × List TrackedObject)) (k : Nat)
    (hact : ∀ c ∈ calls, activeIds c.2 k)
    (hw : ∀ c ∈ calls, ∀ obj ∈ c.2, obj.object_id = k →
      ∃ v, movementVector cfg obj = some v ∧ dotLane cfg v < 0) :
    (eventConsecs (drun cfg st calls).2 k).Pairwise (fun a b => a < b) := by
  unfold drun
  have h := drun_monoInv cfg k calls (st, []) [] hact hw
    (by unfold MonoInv; simp [eventConsecs])
  unfold MonoInv at h
  simpa using h.2

/-- Counterexample for C10 as stated: with `direction_threshold = 1` and
no cooldown, a wrong-way frame at `t = 1` emits `consecutive_frames = 1`;
a correct-direction frame at `t = 2` pops the counter; a wrong-way frame
at `t = 3` (after the cooldown has elapsed) emits `consecutive_frames = 1`
again — not strictly larger. -/
theorem wrong_way_consec_cex :
    eventConsecs (drun ⟨(1, 0), 1, 5, 0⟩ DirSt.init
        [(1, [⟨1, (260, 300), (210, 250, 310, 350), 2, "car", 1, 0,
          [(300, 300), (280, 300), (260, 300)], 0⟩]),
         (2, [⟨1, (300, 300), (250, 250, 350, 350), 2, "car", 1, 0,
          [(260, 300), (280, 300), (300, 300)], 0⟩]),
         (3, [⟨1, (260, 300), (210, 250, 310, 350), 2, "car", 1, 0,
          [(300, 300), (280, 300), (260, 300)], 0⟩])]).2 1 = [1, 1] ∧
    ¬ ((1 : Nat) < 1) := by
  constructor
  · norm_num [drun, dcheck, dstepObj, dcleanup, dictKeep, dictSet, dictGet, dictGetD,
      dictPop, eventConsecs, activeIds, movementVector, dotLane,
      ViolationEvent.consecutiveFrames]
  · norm_num

/-- Witness for C10 (amended): two consecutive wrong-way frames with
threshold 1 and no cooldown; the events report 1 then 2. -/
theorem wrong_way_consec_increasing_witness :
    (eventConsecs (drun ⟨(1, 0), 1, 5, 0⟩ DirSt.init
        [(1, [⟨1, (260, 300), (210, 250, 310, 350), 2, "car", 1, 0,
          [(300, 300), (280, 300), (260, 300)], 0⟩]),
         (2, [⟨1, (260, 300), (210, 250, 310, 350), 2, "car", 1, 0,
          [(300, 300), (280, 300), (260, 300)], 0⟩])]).2 1).Pairwise
      (fun a b => a < b) := by
  refine wrong_way_consec_increasing ⟨(1, 0), 1, 5, 0⟩ DirSt.init _ 1 (by decide) ?_
  intro c hc obj hobj hk
  have hobj2 : obj = ⟨1, (260, 300), (210, 250, 310, 350), 2, "car", 1, 0,
      [(300, 300), (280, 300), (260, 300)], 0⟩ := by
    rcases List.mem_cons.mp hc with rfl | hc₁
    · simpa using hobj
    · rcases List.mem_cons.mp hc₁ with rfl | hc₂
      · simpa using hobj
      · simp at hc₂
  subst hobj2
  exact ⟨(-40, 0), by norm_num [movementVector], by norm_num [dotLane]⟩

/-- Claim C1: when there are existing tracks and detections,
`CentroidTracker.update` computes exactly the greedy association the
specification words (`updateSpecGreedy`): tracks processed in ascending
order of their minimum distance to any detection, each taking the column
that was its argmin at matrix-construction time, skipping used rows or
columns and pairs beyond `max_distance`; matched tracks get the
detection's centroid/bbox/confidence, `disappeared = 0`, `frame_count`
incremented, and the centroid appended to the history; unused rows and
columns are handled as in spec steps 5-6. -/
theorem update_matches_greedy_spec (t : Tracker) (dets : List Detection)
    (hobj : t.objects ≠ []) (hdets : dets ≠ []) :
    update t dets = updateSpecGreedy t dets := by
  have hupd : update t dets = updateMatch t dets := by
    unfold update
    rw [if_neg hdets, if_neg hobj]
  rw [hupd]
  unfold updateMatch updateSpecGreedy
  simp only []
  rw [specSort_map, List.foldl_map]
  have hfun : (fun x y => specWalkStep t.objects dets t.max_distance x
      (specRowInfo t.objects dets y)) =
      matchStep t.objects dets t.max_distance := by
    funext x y
    exact specWalkStep_eq t.objects dets t.max_distance x y
  rw [hfun]

/-- Witness for C1: two tracks whose nearest detections cross, evaluated
concretely on both sides of the equality. -/
theorem update_matches_greedy_spec_witness :
    update (⟨30, 80, 2, [(0, ⟨0, (10, 10), (0, 0, 20, 20), 2, "car", 1, 0,
        [(10, 10)], 0⟩), (1, ⟨1, (110, 10), (100, 0, 120, 20), 2, "car", 1, 0,
        [(110, 10)], 0⟩)]⟩ : Tracker)
      [⟨(95, 0, 115, 20), 2, "car", 1⟩, ⟨(30, 0, 50, 20), 2, "car", 1⟩] =
    updateSpecGreedy (⟨30, 80, 2, [(0, ⟨0, (10, 10), (0, 0, 20, 20), 2, "car", 1, 0,
        [(10, 10)], 0⟩), (1, ⟨1, (110, 10), (100, 0, 120, 20), 2, "car", 1, 0,
        [(110, 10)], 0⟩)]⟩ : Tracker)
      [⟨(95, 0, 115, 20), 2, "car", 1⟩, ⟨(30, 0, 50, 20), 2, "car", 1⟩] :=
  update_matches_greedy_spec _ _ (by decide) (by decide)

/-- Claim C5, amended: if the tracker's `max_distance` is nonnegative,
track `i` has `disappeared = 0` when the empty-frame calls begin, and it
is the only track whose centroid equals the detection's centroid, then
after `k ≤ max_disappeared` empty `update([])` calls followed by an
`update` with one detection at that centroid, the detection is associated
back to track `i` — the track survives with the detection's centroid and
`disappeared = 0` — and no new id is registered.  Without the
`disappeared = 0` and uniqueness provisos the claim fails (see the
counterexample). -/
theorem tracker_reacquires_id (t : Tracker) (i : Nat) (o : TrackedObject)
    (d : Detection) (k : Nat)
    (hmd : 0 ≤ t.max_distance)
    (hmem : (i, o) ∈ t.objects)
    (hc : o.centroid = d.center)
    (hdis : o.disappeared = 0)
    (huniq : ∀ p ∈ t.objects, p.2.centroid = d.center → p.1 = i)
    (hk : k ≤ t.max_disappeared) :
    (∃ p ∈ (update (runUpdates t (List.replicate k [])) [d]).objects,
      p.1 = i ∧ p.2.centroid = d.center ∧ p.2.disappeared = 0) ∧
    (update (runUpdates t (List.replicate k [])) [d]).next_object_id =
      t.next_object_id := by
  have h1 : (i, { o with disappeared := o.disappeared + k }) ∈
      (runUpdates t (List.replicate k [])).objects :=
    emptyRun_mem t k i o hmem (by omega)
  have h2 : ∀ p ∈ (runUpdates t (List.replicate k [])).objects,
      p.2.centroid = d.center → p.1 = i := by
    intro p hp hcent
    obtain ⟨q, hq, hkey, hcentq⟩ := emptyRun_mem_rev t k p hp
    rw [hkey]
    refine huniq q hq ?_
    rw [← hcentq]
    exact hcent
  have h3 : 0 ≤ (runUpdates t (List.replicate k [])).max_distance := by
    rw [(emptyRun_params t k).2.1]
    exact hmd
  have h4 := update_single_matches (runUpdates t (List.replicate k [])) i d
    ({ o with disappeared := o.disappeared + k }) h3 h1 hc h2
  obtain ⟨⟨o₂, hm, hcent, hdis₂⟩, hnid⟩ := h4
  exact ⟨⟨(i, o₂), hm, rfl, hcent, hdis₂⟩,
    hnid.trans (emptyRun_params t k).2.2⟩

/-- Counterexample for C5 as stated, at two concrete inputs that satisfy
the claim's stated hypotheses (a state holding a track with id `i` at
centroid `c`, `k ≤ max_disappeared` empty calls, one detection at `c`).
Instance A: the track already has `disappeared = 1` with
`max_disappeared = 1`, so one more empty call deletes it and the detection
registers a fresh id.  Instance B: two tracks share the centroid; the
detection is associated to the earlier one, so the later id is not updated
(its `disappeared` becomes 1, not 0). -/
theorem tracker_reacquires_id_cex :
    ((3, (⟨3, (300, 300), (250, 250, 350, 350), 2, "car", 1, 1, [(300, 300)], 0⟩ :
        TrackedObject)) ∈
        (⟨1, 80, 5, [(3, ⟨3, (300, 300), (250, 250, 350, 350), 2, "car", 1, 1,
          [(300, 300)], 0⟩)]⟩ : Tracker).objects ∧
      (⟨(250, 250, 350, 350), 2, "car", 1⟩ : Detection).center = (300, 300) ∧
      1 ≤ (⟨1, 80, 5, [(3, ⟨3, (300, 300), (250, 250, 350, 350), 2, "car", 1, 1,
        [(300, 300)], 0⟩)]⟩ : Tracker).max_disappeared ∧
      ¬ ((∃ p ∈ (update (runUpdates
              (⟨1, 80, 5, [(3, ⟨3, (300, 300), (250, 250, 350, 350), 2, "car", 1, 1,
                [(300, 300)], 0⟩)]⟩ : Tracker) (List.replicate 1 []))
              [⟨(250, 250, 350, 350), 2, "car", 1⟩]).objects,
          p.1 = 3 ∧ p.2.centroid = (300, 300) ∧ p.2.disappeared = 0) ∧
        (update (runUpdates
          (⟨1, 80, 5, [(3, ⟨3, (300, 300), (250, 250, 350, 350), 2, "car", 1, 1,
            [(300, 300)], 0⟩)]⟩ : Tracker) (List.replicate 1 []))
          [⟨(250, 250, 350, 350), 2, "car", 1⟩]).next_object_id = 5)) ∧
    ((1, (⟨1, (300, 300), (250, 250, 350, 350), 2, "car", 1, 0, [(300, 300)], 0⟩ :
        TrackedObject)) ∈
        (⟨30, 80, 2, [(0, ⟨0, (300, 300), (250, 250, 350, 350), 2, "car", 1, 0,
          [(300, 300)], 0⟩), (1, ⟨1, (300, 300), (250, 250, 350, 350), 2, "car", 1, 0,
          [(300, 300)], 0⟩)]⟩ : Tracker).objects ∧
      ¬ (∃ p ∈ (update (⟨30, 80, 2, [(0, ⟨0, (300, 300), (250, 250, 350, 350), 2,
            "car", 1, 0, [(300, 300)], 0⟩), (1, ⟨1, (300, 300), (250, 250, 350, 350),
            2, "car", 1, 0, [(300, 300)], 0⟩)]⟩ : Tracker)
            [⟨(250, 250, 350, 350), 2, "car", 1⟩]).objects,
        p.1 = 1 ∧ p.2.centroid = (300, 300) ∧ p.2.disappeared = 0)) := by
  constructor
  · refine ⟨by decide, by decide, by decide, ?_⟩
    decide
  · refine ⟨by decide, ?_⟩
    decide

/-- Witness for C5 (amended): one track at centroid (300, 300) with
`disappeared = 0`, two empty frames, then a detection at the same
centroid; the track keeps id 0 and no new id is registered. -/
theorem tracker_reacquires_id_witness :
    (∃ p ∈ (update (runUpdates
          (⟨30, 80, 1, [(0, ⟨0, (300, 300), (250, 250, 350, 350), 2, "car", 1, 0,
            [(300, 300)], 0⟩)]⟩ : Tracker) (List.replicate 2 []))
          [⟨(250, 250, 350, 350), 2, "car", 1⟩]).objects,
      p.1 = 0 ∧
      p.2.centroid = (⟨(250, 250, 350, 350), 2, "car", 1⟩ : Detection).center ∧
      p.2.disappeared = 0) ∧
    (update (runUpdates
      (⟨30, 80, 1, [(0, ⟨0, (300, 300), (250, 250, 350, 350), 2, "car", 1, 0,
        [(300, 300)], 0⟩)]⟩ : Tracker) (List.replicate 2 []))
      [⟨(250, 250, 350, 350), 2, "car", 1⟩]).next_object_id = 1 :=
  tracker_reacquires_id
    ⟨30, 80, 1, [(0, ⟨0, (300, 300), (250, 250, 350, 350), 2, "car", 1, 0,
      [(300, 300)], 0⟩)]⟩ 0
    ⟨0, (300, 300), (250, 250, 350, 350), 2, "car", 1, 0, [(300, 300)], 0⟩
    ⟨(250, 250, 350, 350), 2, "car", 1⟩ 2
    (by decide) (by decide) (by decide) (by decide) (by decide) (by decide)

/-- Claim C6, amended: over any sequence of `check` calls in which the
object id stays in the active track set of every call (so that the
stale-entry cleanup never erases its `_last_alert_time` entry), any two
ILLEGAL_PARKING events emitted for that id have timestamps more than
`cooldown_seconds` apart.  Without that proviso the cleanup forgets the
last alert time when the id is absent and the separation fails (see the
counterexample). -/
theorem zone_cooldown_separation (cfg : ZoneCfg) (st : ZoneSt)
    (calls : List (ℚ × List TrackedObject)) (k : Nat)
    (hc : 0 ≤ cfg.cooldown_seconds)
    (hact : ∀ c ∈ calls, activeIds c.2 k) :
    (eventTimes (zrun cfg st calls).2 k).Pairwise
      (fun a b => a + cfg.cooldown_seconds < b) := by
  unfold zrun
  have h := zrun_sepInv cfg k hc calls (st, []) [] hact
    (by unfold SepInv; simp [eventTimes])
  unfold SepInv at h
  simpa using h.2

/-- Counterexample for C6 as stated: with `dwell_threshold = 1` and
`cooldown_seconds = 30`, object 1 triggers at `t = 1000`, is absent at
`t = 1001` (so the cleanup pops its `_last_alert_time` entry), and
triggers again at `t = 1002` — two events only 2 seconds apart. -/
theorem zone_cooldown_cex :
    eventTimes (zrun ⟨[(100, 100), (500, 100), (500, 500), (100, 500)], 1, 30, "zone_1"⟩
        ZoneSt.init
        [(1000, [⟨1, (300, 300), (250, 250, 350, 350), 2, "car", 1, 0, [(300, 300)], 0⟩]),
         (1001, []),
         (1002, [⟨1, (300, 300), (250, 250, 350, 350), 2, "car", 1, 0, [(300, 300)], 0⟩])]).2
        1 =
      [1000, 1002] ∧
    ¬ ((1000 : ℚ) + 30 < 1002) := by
  constructor
  · norm_num [zrun, zcheck, zstepObj, zcleanup, dictKeep, dictSet, dictGet, dictGetD,
      dictPop, eventTimes, activeIds, pointInPoly, onSegment, List.rotate, List.filter,
      List.any]
  · norm_num

/-- Witness for C6 (amended): object 1 present in both calls; with the
default 30-second cooldown the two emitted events are 31 seconds apart. -/
theorem zone_cooldown_separation_witness :
    (eventTimes (zrun ⟨[(100, 100), (500, 100), (500, 500), (100, 500)], 1, 30, "zone_1"⟩
        ZoneSt.init
        [(1000, [⟨1, (300, 300), (250, 250, 350, 350), 2, "car", 1, 0, [(300, 300)], 0⟩]),
         (1031, [⟨1, (300, 300), (250, 250, 350, 350), 2, "car", 1, 0, [(300, 300)], 0⟩])]).2
        1).Pairwise (fun a b => a + 30 < b) :=
  zone_cooldown_separation
    ⟨[(100, 100), (500, 100), (500, 500), (100, 500)], 1, 30, "zone_1"⟩ ZoneSt.init
    [(1000, [⟨1, (300, 300), (250, 250, 350, 350), 2, "car", 1, 0, [(300, 300)], 0⟩]),
     (1031, [⟨1, (300, 300), (250, 250, 350, 350), 2, "car", 1, 0, [(300, 300)], 0⟩])]
    1 (by norm_num) (by decide)

/-- Claim C8 evaluated at a failing input (code bug):
`DirectionViolationDetector` receives no polygon — its constructor and
`check` never mention `direction_zone_polygon` (mirrored here by `DirCfg`
and `dcheck` having no polygon at all), and no caller filters tracked
objects by it — so with the configured direction zone
`[[0,0],[10,0],[10,10],[0,10]]`, an object whose centroid `(280, 300)`
lies outside that polygon still has its wrong-way counter incremented and
a WRONG_WAY event emitted for it, contradicting `backend/config.py`'s own
comment that wrong-way checks only apply to vehicles inside the zone. -/
theorem direction_ignores_zone :
    pointInPoly [(0, 0), (10, 0), (10, 10), (0, 10)] (280, 300) = false ∧
    (dcheck ⟨(1, 0), 1, 5, 0⟩ DirSt.init 1
        [⟨1, (280, 300), (230, 250, 330, 350), 2, "car", 1, 0,
          [(300, 300), (280, 300)], 0⟩]).2.map ViolationEvent.object_id = [1] ∧
    dictGet (dcheck ⟨(1, 0), 1, 5, 0⟩ DirSt.init 1
        [⟨1, (280, 300), (230, 250, 330, 350), 2, "car", 1, 0,
          [(300, 300), (280, 300)], 0⟩]).1.wrong_way 1 = some 1 := by
  refine ⟨?_, ?_, ?_⟩ <;>
    norm_num [dcheck, dstepObj, dcleanup, dictKeep, dictSet, dictGet, dictGetD,
      movementVector, dotLane, activeIds, pointInPoly, onSegment, List.rotate,
      List.filter, List.any]

/-- Claim C9, amended: `_capture_snapshot` discards `cv2.imwrite`'s
success flag, so a failed snapshot write changes nothing: the dispatched
payloads are identical whatever the write outcomes, and every dispatched
payload carries the constructed snapshot path string — never null.  (The
claim's "failure is logged" and "null snapshot_path" have no counterpart
in the source, which has no failure branch at all.) -/
theorem snapshot_failure_dispatch (zc : ZoneCfg) (dc : DirCfg) (m : ManagerSt)
    (snapshotDir tstamp : String) (ok₁ ok₂ : Nat → Bool) (now : ℚ)
    (objs : List TrackedObject) :
    checkViolations zc dc m snapshotDir tstamp ok₁ now objs =
      checkViolations zc dc m snapshotDir tstamp ok₂ now objs ∧
    (checkViolations zc dc m snapshotDir tstamp ok₁ now objs).2.2.map
        AlertPayload.snapshot_path =
      (checkViolations zc dc m snapshotDir tstamp ok₁ now objs).2.1.map
        (fun v => some (snapshotPath snapshotDir tstamp v)) := by
  constructor
  · simp only [checkViolations]
    rw [buildPayloads_writeOk_irrel snapshotDir tstamp ok₁ ok₂ 0 0]
  · simp only [checkViolations]
    exact buildPayloads_snapshot_path snapshotDir tstamp ok₁ 0 _

/-- Counterexample for C9 as stated: one ILLEGAL_PARKING event whose
snapshot write fails (`writeOk = fun _ => false`) is still dispatched with
`snapshot_path` equal to the constructed path — not null. -/
theorem snapshot_path_not_null_cex :
    (checkViolations ⟨[(100, 100), (500, 100), (500, 500), (100, 500)], 1, 30, "zone_1"⟩
        ⟨(1, 0), 10, 5, 30⟩ ⟨ZoneSt.init, DirSt.init, 0, []⟩
        "snapshots" "20240101_000000" (fun _ => false) 1000
        [⟨1, (300, 300), (250, 250, 350, 350), 2, "car", 1, 0, [(300, 300)], 0⟩]).2.2.map
        AlertPayload.snapshot_path =
      [some "snapshots/ILLEGAL_PARKING_1_20240101_000000.jpg"] ∧
    some "snapshots/ILLEGAL_PARKING_1_20240101_000000.jpg" ≠ (none : Option String) := by
  constructor
  · norm_num [checkViolations, buildPayloads, captureSnapshot, snapshotPath, zcheck,
      dcheck, zstepObj, dstepObj, zcleanup, dcleanup, movementVector, dictKeep,
      dictSet, dictGet, dictGetD, dictPop, activeIds, pointInPoly, onSegment,
      List.rotate, List.filter, List.any]
    rfl
  · simp

/-- Witness for C7: a single in-zone object with empty prior state gets
dwell count 1; the same object outside the zone has its entry removed. -/
theorem zone_dwell_transitions_witness :
    (pointInPoly [(100, 100), (500, 100), (500, 500), (100, 500)] (300, 300) = true →
      dictGet (zcheck ⟨[(100, 100), (500, 100), (500, 500), (100, 500)], 5, 30, "zone_1"⟩
          ZoneSt.init 1000
          [⟨1, (300, 300), (250, 250, 350, 350), 2, "car", 1, 0, [(300, 300)], 0⟩]).1.dwell 1 =
        some (dictGetD ZoneSt.init.dwell 1 0 + 1)) ∧
    (pointInPoly [(100, 100), (500, 100), (500, 500), (100, 500)] (300, 300) = false →
      dictGet (zcheck ⟨[(100, 100), (500, 100), (500, 500), (100, 500)], 5, 30, "zone_1"⟩
          ZoneSt.init 1000
          [⟨1, (300, 300), (250, 250, 350, 350), 2, "car", 1, 0, [(300, 300)], 0⟩]).1.dwell 1 =
        none) :=
  zone_dwell_transitions ⟨[(100, 100), (500, 100), (500, 500), (100, 500)], 5, 30, "zone_1"⟩
    ZoneSt.init 1000 [⟨1, (300, 300), (250, 250, 350, 350), 2, "car", 1, 0, [(300, 300)], 0⟩]
    ⟨1, (300, 300), (250, 250, 350, 350), 2, "car", 1, 0, [(300, 300)], 0⟩
    (by decide) (List.mem_cons_self _ _)

end TVS
